import Mathlib

/-!
Shallow embedding of `mypy_protobuf.py` (protoc plugin generating mypy stubs),
with theorems about its documented behaviour.

Python string primitives are embedded as structurally recursive functions on
`List Char` with CPython semantics (code-point comparison, left-to-right
single-character replacement, separator splitting), so that every definition
is executable by the kernel.  Every use of `str.replace` / `str.split` /
`str.rsplit` in the source has a single-character pattern, so the embeddings
take a `Char` pattern.
-/

namespace MypyProtobuf

/-- Python `s.replace(old, new)` on character lists, for a one-character
`old` pattern (every `replace` in the source uses a one-character pattern). -/
def replaceChars (old : Char) (new : List Char) : List Char → List Char
  | [] => []
  | c :: cs =>
    if c = old then new ++ replaceChars old new cs
    else c :: replaceChars old new cs

/-- Python `s.replace(old, new)` for a one-character `old` pattern. -/
def pyReplaceChar (s : String) (old : Char) (new : String) : String :=
  ⟨replaceChars old new.data s.data⟩

/-- Python `s.split(sep)` on character lists, one-character separator. -/
def splitChar (sep : Char) : List Char → List (List Char)
  | [] => [[]]
  | c :: cs =>
    match splitChar sep cs with
    | [] => [[]]
    | g :: gs => if c = sep then [] :: g :: gs else (c :: g) :: gs

/-- Python `s.split(sep)` for a one-character separator. -/
def pySplitChar (s : String) (sep : Char) : List String :=
  (splitChar sep s.data).map String.mk

/-- Python `s.rsplit('/', 1)`: split off everything after the last slash;
a string with no slash yields a one-element list. -/
def pyRsplitSlash1 (s : String) : List String :=
  match pySplitChar s '/' with
  | [] => [s]
  | [p] => [p]
  | ps => [String.intercalate "/" ps.dropLast, ps.getLastD ""]

/-- Python `s.startswith(p)`. -/
def pyStartsWith (s p : String) : Bool := p.data.isPrefixOf s.data

/-- Python `s.endswith(p)`. -/
def pyEndsWith (s p : String) : Bool := p.data.isSuffixOf s.data

/-- Python `s[n:]` (character count). -/
def pyDrop (s : String) (n : Nat) : String := ⟨s.data.drop n⟩

/-- Python `s[:-n]` (character count). -/
def pyDropRight (s : String) (n : Nat) : String :=
  ⟨s.data.take (s.data.length - n)⟩

/-- Python `len(s)` in code points. -/
def pyLen (s : String) : Nat := s.data.length

/-- Python `sep.join(l)`. -/
def pyJoin (sep : String) (l : List String) : String := String.intercalate sep l

/-- Python string `<` (lexicographic by code point), on character lists. -/
def lexLt : List Char → List Char → Bool
  | [], [] => false
  | [], _ :: _ => true
  | _ :: _, [] => false
  | a :: as, b :: bs =>
    if a.toNat < b.toNat then true
    else if b.toNat < a.toNat then false
    else lexLt as bs

/-- Python string `<=` (lexicographic by code point), on character lists. -/
def lexLe : List Char → List Char → Bool
  | [], _ => true
  | _ :: _, [] => false
  | a :: as, b :: bs =>
    if a.toNat < b.toNat then true
    else if b.toNat < a.toNat then false
    else lexLe as bs

/-- Python string `<` as a proposition. -/
def pyStrLt (a b : String) : Prop := lexLt a.data b.data = true

/-- Python string `<=` as a proposition; `sorted` on Python strings sorts by
this relation. -/
def pyStrLe (a b : String) : Prop := lexLe a.data b.data = true

instance : DecidableRel pyStrLt := fun a b => by unfold pyStrLt; infer_instance

instance : DecidableRel pyStrLe := fun a b => by unfold pyStrLe; infer_instance

/-- Python tuple `<=` on string pairs, as used by `sorted` on
`(name, mangled_name)` import items. -/
def pyPairLe (a b : String × String) : Prop :=
  pyStrLt a.1 b.1 ∨ (a.1 = b.1 ∧ pyStrLe a.2 b.2)

instance : DecidableRel pyPairLe := fun a b => by unfold pyPairLe; infer_instance

/-- Python tuple `<=` restricted to first components, as used by `sorted` on
`wo_fields.items()` (keys are distinct oneof names). -/
def pyKeyLe (a b : String × List String) : Prop := pyStrLe a.1 b.1

instance : DecidableRel pyKeyLe := fun a b => by unfold pyKeyLe; infer_instance

theorem lexLe_refl (x : List Char) : lexLe x x = true := by
  induction x with
  | nil => rfl
  | cons c cs ih => simp [lexLe, ih]

theorem lexLe_total (x y : List Char) : lexLe x y = true ∨ lexLe y x = true := by
  induction x generalizing y with
  | nil => left; rfl
  | cons c cs ih =>
    cases y with
    | nil => right; rfl
    | cons d ds =>
      rcases Nat.lt_trichotomy c.toNat d.toNat with h | h | h
      · left; simp [lexLe, h]
      · rcases ih ds with h2 | h2
        · left; simp [lexLe, h, h2]
        · right; simp [lexLe, h, h2]
      · right; simp [lexLe, h, Nat.lt_asymm h]

theorem charEqOfToNatEq {a b : Char} (h : a.toNat = b.toNat) : a = b := by
  have h2 := congrArg Char.ofNat h
  rwa [Char.ofNat_toNat, Char.ofNat_toNat] at h2

theorem lexLe_trans : ∀ {x y z : List Char}, lexLe x y = true →
    lexLe y z = true → lexLe x z = true
  | [], _, _, _, _ => rfl
  | _ :: _, [], _, h1, _ => by simp [lexLe] at h1
  | _ :: _, _ :: _, [], _, h2 => by simp [lexLe] at h2
  | a :: as, b :: bs, c :: cs, h1, h2 => by
    simp only [lexLe] at h1 h2 ⊢
    rcases Nat.lt_trichotomy a.toNat b.toNat with hab | hab | hab
    · rcases Nat.lt_trichotomy b.toNat c.toNat with hbc | hbc | hbc
      · simp [show a.toNat < c.toNat by omega]
      · simp [show a.toNat < c.toNat by omega]
      · rw [if_neg (by omega), if_pos hbc] at h2
        exact absurd h2 (by simp)
    · rw [if_neg (by omega), if_neg (by omega)] at h1
      rcases Nat.lt_trichotomy b.toNat c.toNat with hbc | hbc | hbc
      · simp [show a.toNat < c.toNat by omega]
      · rw [if_neg (by omega), if_neg (by omega)] at h2
        rw [if_neg (by omega), if_neg (by omega)]
        exact lexLe_trans h1 h2
      · rw [if_neg (by omega), if_pos hbc] at h2
        exact absurd h2 (by simp)
    · rw [if_neg (by omega), if_pos hab] at h1
      exact absurd h1 (by simp)

theorem lexLe_antisymm : ∀ {x y : List Char}, lexLe x y = true →
    lexLe y x = true → x = y
  | [], [], _, _ => rfl
  | [], _ :: _, _, h2 => by simp [lexLe] at h2
  | _ :: _, [], h1, _ => by simp [lexLe] at h1
  | a :: as, b :: bs, h1, h2 => by
    simp only [lexLe] at h1 h2
    by_cases hab : a.toNat < b.toNat
    · simp [hab, Nat.lt_asymm hab] at h2
    · by_cases hba : b.toNat < a.toNat
      · simp [hab, hba] at h1
      · simp only [hab, hba, if_false] at h1 h2
        have hc : a = b := charEqOfToNatEq (by omega)
        exact hc ▸ congrArg (a :: ·) (lexLe_antisymm h1 h2)

theorem lexLt_iff_le_not_le : ∀ {x y : List Char},
    lexLt x y = true ↔ (lexLe x y = true ∧ ¬ lexLe y x = true)
  | [], [] => by simp [lexLt, lexLe]
  | [], _ :: _ => by simp [lexLt, lexLe]
  | _ :: _, [] => by simp [lexLt, lexLe]
  | a :: as, b :: bs => by
    simp only [lexLt, lexLe]
    rcases Nat.lt_trichotomy a.toNat b.toNat with hab | hab | hab
    · simp [hab, Nat.lt_asymm hab]
    · simp only [hab, Nat.lt_irrefl, if_false]
      exact lexLt_iff_le_not_le
    · simp [hab, Nat.lt_asymm hab]

theorem pyStrLe_antisymm {a b : String} (h1 : pyStrLe a b) (h2 : pyStrLe b a) :
    a = b := by
  cases a with
  | mk da =>
    cases b with
    | mk db => exact congrArg String.mk (lexLe_antisymm h1 h2)

instance : IsTotal String pyStrLe := ⟨fun a b => lexLe_total a.data b.data⟩

instance : IsTrans String pyStrLe := ⟨fun _ _ _ => lexLe_trans⟩

instance : IsRefl String pyStrLe := ⟨fun a => lexLe_refl a.data⟩

instance : IsAntisymm String pyStrLe := ⟨fun _ _ => pyStrLe_antisymm⟩

theorem pyStrLt_iff {a b : String} :
    pyStrLt a b ↔ (pyStrLe a b ∧ ¬ pyStrLe b a) := lexLt_iff_le_not_le

instance : IsTotal (String × String) pyPairLe :=
  ⟨fun a b => by
    unfold pyPairLe
    rcases lexLe_total a.1.data b.1.data with h | h
    · by_cases he : pyStrLe b.1 a.1
      · have heq : a.1 = b.1 := pyStrLe_antisymm h he
        rcases lexLe_total a.2.data b.2.data with h2 | h2
        · exact Or.inl (Or.inr ⟨heq, h2⟩)
        · exact Or.inr (Or.inr ⟨heq.symm, h2⟩)
      · exact Or.inl (Or.inl (pyStrLt_iff.mpr ⟨h, he⟩))
    · by_cases he : pyStrLe a.1 b.1
      · have heq : a.1 = b.1 := pyStrLe_antisymm he h
        rcases lexLe_total a.2.data b.2.data with h2 | h2
        · exact Or.inl (Or.inr ⟨heq, h2⟩)
        · exact Or.inr (Or.inr ⟨heq.symm, h2⟩)
      · exact Or.inr (Or.inl (pyStrLt_iff.mpr ⟨h, he⟩))⟩

instance : IsTrans (String × String) pyPairLe :=
  ⟨fun a b c h1 h2 => by
    unfold pyPairLe at h1 h2 ⊢
    rcases h1 with h1 | ⟨he1, hle1⟩ <;> rcases h2 with h2 | ⟨he2, hle2⟩
    · rw [pyStrLt_iff] at h1 h2
      exact Or.inl (pyStrLt_iff.mpr
        ⟨lexLe_trans h1.1 h2.1, fun hc => h2.2 (lexLe_trans hc h1.1)⟩)
    · left; rwa [← he2]
    · left; rwa [he1]
    · right; exact ⟨he1.trans he2, lexLe_trans hle1 hle2⟩⟩

instance : IsAntisymm (String × String) pyPairLe :=
  ⟨fun a b h1 h2 => by
    unfold pyPairLe at h1 h2
    rcases h1 with h1 | ⟨he1, hle1⟩
    · rcases h2 with h2 | ⟨he2, hle2⟩
      · rw [pyStrLt_iff] at h1 h2
        exact absurd h1.1 h2.2
      · rw [pyStrLt_iff, he2] at h1
        exact absurd (lexLe_refl _) h1.2
    · rcases h2 with h2 | ⟨he2, hle2⟩
      · rw [pyStrLt_iff, he1] at h2
        exact absurd (lexLe_refl _) h2.2
      · exact Prod.ext he1 (pyStrLe_antisymm hle1 hle2)⟩

instance : IsTotal (String × List String) pyKeyLe :=
  ⟨fun a b => lexLe_total a.1.data b.1.data⟩

instance : IsTrans (String × List String) pyKeyLe :=
  ⟨fun _ _ _ h1 h2 => lexLe_trans h1 h2⟩

/-- Python `sorted` on strings. -/
def pySortStr (l : List String) : List String := List.insertionSort pyStrLe l

/-- Python `sorted` on `(name, mangled)` pairs. -/
def pySortPairs (l : List (String × String)) : List (String × String) :=
  List.insertionSort pyPairLe l

/-- Python `sorted` on `(oneof_name, members)` items (distinct keys). -/
def pySortItems (l : List (String × List String)) : List (String × List String) :=
  List.insertionSort pyKeyLe l

/-! ## Descriptor data model (`google.protobuf.descriptor_pb2`, the parts the
plugin reads).  Field `type` and `label` are the wire-level numeric tags:
`LABEL_REPEATED = 3`, `TYPE_DOUBLE = 1` … `TYPE_SINT64 = 18`.  A Python
`HasField("oneof_index")` test is modelled by an `Option Nat`. -/

structure FieldDescriptorProto where
  name : String
  label : Nat
  type : Nat
  type_name : String
  oneof_index : Option Nat
deriving DecidableEq

structure EnumValueDescriptorProto where
  name : String
  number : Int
deriving DecidableEq

structure EnumDescriptorProto where
  name : String
  value : List EnumValueDescriptorProto
deriving DecidableEq

structure OneofDescriptorProto where
  name : String
deriving DecidableEq

structure MessageOptions where
  map_entry : Bool
deriving DecidableEq

structure DescriptorProto where
  name : String
  field : List FieldDescriptorProto
  nested_type : List DescriptorProto
  enum_type : List EnumDescriptorProto
  oneof_decl : List OneofDescriptorProto
  options : MessageOptions

structure MethodDescriptorProto where
  name : String
  input_type : String
  output_type : String
  server_streaming : Bool
deriving DecidableEq

structure ServiceDescriptorProto where
  name : String
  method : List MethodDescriptorProto
deriving DecidableEq

structure FileOptions where
  py_generic_services : Bool
deriving DecidableEq

/-- A schema file descriptor.  `protoSyntax` embeds the Python field holding
the file's syntax level tag (the string compared against "proto3"). -/
structure FileDescriptorProto where
  name : String
  package : String
  protoSyntax : String
  message_type : List DescriptorProto
  enum_type : List EnumDescriptorProto
  service : List ServiceDescriptorProto
  extension : List FieldDescriptorProto
  options : FileOptions

/-- The `Descriptors` index: qualified name → message, qualified name →
owning file, and the files to generate (Python dicts as association lists,
`to_generate` in request order). -/
structure Descriptors where
  messages : List (String × DescriptorProto)
  message_to_fd : List (String × FileDescriptorProto)
  to_generate : List (String × FileDescriptorProto)

/-- `PYTHON_RESERVED` from the source: the closed reserved-word set. -/
def PYTHON_RESERVED : List String :=
  ["False", "None", "True", "and", "as", "async", "await", "assert",
   "break", "class", "continue", "def", "del", "elif", "else", "except",
   "finally", "for", "from", "global", "if", "import", "in", "is",
   "lambda", "nonlocal", "not", "or", "pass", "raise", "return", "try",
   "while", "with", "yield"]

/-- `PY2_ONLY_BUILTINS` from the source. -/
def PY2_ONLY_BUILTINS : List String := ["buffer", "unicode"]

/-- `HEADER` from the source (the generated-file marker comment line). -/
def HEADER : String :=
  "# @generated by generate_proto_mypy_stubs.py.  Do not edit!\n"

/-- `_mangle_builtin` from the source. -/
def mangleBuiltin (name : String) : String := "builtin___" ++ name

/-- `_mangle_message` from the source. -/
def mangleMessage (name : String) : String := "type___" ++ name

/-- `is_scalar` from the source (`TYPE_MESSAGE = 11`, `TYPE_GROUP = 10`). -/
def isScalar (fd : FieldDescriptorProto) : Bool :=
  ¬ (fd.type = 11 ∨ fd.type = 10)

/-- `PkgWriter` mutable state: output lines, current indent string, the
recorded imports (`Dict[Text, Set[Tuple[Text, Text]]]` modelled as an
insertion-ordered duplicate-free list of `(module, name, mangled)` triples),
and the local/builtin alias sets (insertion-ordered duplicate-free lists). -/
structure WriterState where
  lines : List String
  indent : String
  imports : List (String × String × String)
  locals : List String
  builtin_vars : List String
  py2_builtin_vars : List String
deriving DecidableEq

/-- Fresh `PkgWriter` state (`PkgWriter.__init__`). -/
def initState : WriterState :=
  { lines := [], indent := "", imports := [], locals := [],
    builtin_vars := [], py2_builtin_vars := [] }

/-- Python `set.add`: no-op when the element is already present. -/
def insertOnce {α : Type} [DecidableEq α] (l : List α) (x : α) : List α :=
  if x ∈ l then l else l ++ [x]

/-- `PkgWriter._import`: record a `(module, symbol)` import request and
return the deterministically mangled local alias. -/
def importAdd (s : WriterState) (path name : String) : String × WriterState :=
  let imp := pyReplaceChar path '/' "."
  let mangled_name := pyReplaceChar imp '.' "___" ++ "___" ++ name
  (mangled_name,
   { s with imports := insertOnce s.imports (imp, name, mangled_name) })

/-- `PkgWriter._builtin`: record a builtin alias and return the mangled
name. -/
def builtinAdd (s : WriterState) (name : String) : String × WriterState :=
  if name ∈ PY2_ONLY_BUILTINS then
    (mangleBuiltin name,
     { s with py2_builtin_vars := insertOnce s.py2_builtin_vars name })
  else
    (mangleBuiltin name,
     { s with builtin_vars := insertOnce s.builtin_vars name })

/-- `PkgWriter._write_line` (with the line already formatted): an empty line
is appended bare, any other line gets the current indent prefixed. -/
def writeLine (s : WriterState) (line : String) : WriterState :=
  if line = "" then { s with lines := s.lines ++ [""] }
  else { s with lines := s.lines ++ [s.indent ++ line] }

/-- Entering `with self._indent()`: append four spaces. -/
def indentIn (s : WriterState) : WriterState :=
  { s with indent := s.indent ++ "    " }

/-- Leaving `with self._indent()`: `self.indent[:-4]`. -/
def indentOut (s : WriterState) : WriterState :=
  { s with indent := pyDropRight s.indent 4 }

/-- `PkgWriter._import_message`: resolve a fully qualified message or enum
reference to a local mangled name (same file) or an imported alias plus the
residual dotted path (other file).  A missing index entry or a failed
`assert` aborts. -/
def stripPackage (message_fd : FileDescriptorProto) (name : String) :
    Except String String :=
  if message_fd.package ≠ "" then
    if pyStartsWith name ("." ++ message_fd.package ++ ".") then
      .ok (pyDrop name (pyLen ("." ++ message_fd.package ++ ".")))
    else .error "AssertionError"
  else
    if pyStartsWith name "." then .ok (pyDrop name 1)
    else .error "AssertionError"

/-- The generated module name imported for a message defined in another
file: `message_fd.name[:-6].replace("-", "_") + "_pb2"`. -/
def externalModule (message_fd : FileDescriptorProto) : String :=
  pyReplaceChar (pyDropRight message_fd.name 6) '-' "_" ++ "_pb2"

/-- The cross-file branch of `_import_message`: import the first path
segment from the generated module and append the residual dotted path. -/
def importMessageExternal (message_fd : FileDescriptorProto) (name' : String)
    (s : WriterState) : Except String (String × WriterState) :=
  if pyJoin "." (pySplitChar name' '.').tail = "" then
    .ok (importAdd s (externalModule message_fd)
          ((pySplitChar name' '.').headD ""))
  else
    .ok ((importAdd s (externalModule message_fd)
            ((pySplitChar name' '.').headD "")).1 ++ "." ++
           pyJoin "." (pySplitChar name' '.').tail,
         (importAdd s (externalModule message_fd)
            ((pySplitChar name' '.').headD "")).2)

def importMessage (ds : Descriptors) (fd : FileDescriptorProto)
    (name : String) (s : WriterState) : Except String (String × WriterState) :=
  match List.lookup name ds.message_to_fd with
  | none => .error ("KeyError: " ++ name)
  | some message_fd =>
    if ¬ pyEndsWith message_fd.name ".proto" then .error "AssertionError"
    else
      match stripPackage message_fd name with
      | .error e => .error e
      | .ok name' =>
        if message_fd.name = fd.name then .ok (mangleMessage name', s)
        else importMessageExternal message_fd name' s

/-- The four builtin aliases recorded at the top of `python_type` (the
source computes `b_float`, `b_int`, `b_bool`, `b_bytes` via `_builtin`
before dispatching, so every call records all four). -/
def scalarBuiltins (s : WriterState) : WriterState :=
  (builtinAdd (builtinAdd (builtinAdd (builtinAdd s "float").2 "int").2
    "bool").2 "bytes").2

/-- `PkgWriter.python_type`: the builtin aliases are recorded up front, then
the wire-type tag is dispatched through the fixed mapping table; a tag
outside the table is a fatal unrecognized-type error. -/
def pythonType (ds : Descriptors) (fd : FileDescriptorProto)
    (field : FieldDescriptorProto) (s : WriterState) :
    Except String (String × WriterState) :=
  match field.type with
  | 1 => .ok (mangleBuiltin "float", scalarBuiltins s)
  | 2 => .ok (mangleBuiltin "float", scalarBuiltins s)
  | 3 => .ok (mangleBuiltin "int", scalarBuiltins s)
  | 4 => .ok (mangleBuiltin "int", scalarBuiltins s)
  | 6 => .ok (mangleBuiltin "int", scalarBuiltins s)
  | 16 => .ok (mangleBuiltin "int", scalarBuiltins s)
  | 18 => .ok (mangleBuiltin "int", scalarBuiltins s)
  | 5 => .ok (mangleBuiltin "int", scalarBuiltins s)
  | 13 => .ok (mangleBuiltin "int", scalarBuiltins s)
  | 7 => .ok (mangleBuiltin "int", scalarBuiltins s)
  | 15 => .ok (mangleBuiltin "int", scalarBuiltins s)
  | 17 => .ok (mangleBuiltin "int", scalarBuiltins s)
  | 8 => .ok (mangleBuiltin "bool", scalarBuiltins s)
  | 9 => .ok (importAdd (scalarBuiltins s) "typing" "Text")
  | 12 => .ok (mangleBuiltin "bytes", scalarBuiltins s)
  | 14 => importMessage ds fd (field.type_name ++ "Value") (scalarBuiltins s)
  | 11 => importMessage ds fd field.type_name (scalarBuiltins s)
  | 10 => importMessage ds fd field.type_name (scalarBuiltins s)
  | _ => .error ("Unrecognized type: " ++ toString field.type)

/-- A single quote character, used inside emitted text. -/
def sq : String := String.singleton (Char.ofNat 39)

/-- `PkgWriter.write_enum_values`: one cast line per enum value, skipping
reserved-word value names. -/
def writeEnumValues (vals : List EnumValueDescriptorProto)
    (enum_full_name : String) (s : WriterState) : WriterState :=
  vals.foldl
    (fun s val =>
      if val.name ∈ PYTHON_RESERVED then s
      else
        let p := importAdd s "typing" "cast"
        writeLine p.2 (val.name ++ " = " ++ p.1 ++ "(" ++ enum_full_name ++
          ", " ++ toString val.number ++ ")"))
    s

/-- `PkgWriter.write_module_attributes`. -/
def writeModuleAttributes (s : WriterState) : WriterState :=
  let p := importAdd s "google.protobuf.descriptor" "FileDescriptor"
  writeLine (writeLine p.2 ("DESCRIPTOR: " ++ p.1 ++ " = ...")) ""

/-- `PkgWriter.write_enums`: reserved-word enum names are skipped; each enum
emits a value NewType, its mangled alias, the wrapper class with nested value
constants, the value constants again at the outer level, and a mangled
message alias. -/
def writeEnums (enums : List EnumDescriptorProto) (pre : String)
    (s : WriterState) : WriterState :=
  enums.foldl
    (fun s enum =>
      if enum.name ∈ PYTHON_RESERVED then s
      else
        let enum_value_type := enum.name ++ "Value"
        let p1 := importAdd s "typing" "NewType"
        let p2 := builtinAdd p1.2 "int"
        let s := writeLine p2.2 (enum_value_type ++ " = " ++ p1.1 ++ "(" ++ sq ++
          enum_value_type ++ sq ++ ", " ++ p2.1 ++ ")")
        let s := writeLine s (mangleMessage enum_value_type ++ " = " ++
          enum_value_type)
        let enum_value_full_type := pre ++ enum_value_type
        let s := writeLine s (enum.name ++ ": " ++ "_" ++ enum.name)
        let p3 := importAdd s "google.protobuf.internal.enum_type_wrapper"
          "_EnumTypeWrapper"
        let s := writeLine p3.2 ("class _" ++ enum.name ++ "(" ++ p3.1 ++ "[" ++
          enum_value_full_type ++ "]):")
        let s := indentIn s
        let p4 := importAdd s "google.protobuf.descriptor" "EnumDescriptor"
        let s := writeLine p4.2 ("DESCRIPTOR: " ++ p4.1 ++ " = ...")
        let s := writeEnumValues enum.value enum_value_full_type s
        let s := indentOut s
        let s := writeEnumValues enum.value enum_value_full_type s
        let s := writeLine s (mangleMessage enum.name ++ " = " ++ enum.name)
        writeLine s "")
    s

/-! ## Stringly-typed accessor signatures (`write_stringly_typed_fields`) -/

/-- The has-presence condition of `write_stringly_typed_fields`: the field is
in a oneof, or it is non-repeated and (the file syntax is not proto3 or the
field is a message field). -/
def hfCondition (fd : FileDescriptorProto) (f : FieldDescriptorProto) : Bool :=
  f.oneof_index.isSome ||
    (!(f.label == 3) && (!(fd.protoSyntax == "proto3") || f.type == 11))

/-- `hf_fields` before the oneof-name extension. -/
def hfFields (fd : FileDescriptorProto) (desc : DescriptorProto) :
    List String :=
  (desc.field.filter (hfCondition fd)).map (·.name)

/-- `cf_fields` before the oneof-name extension: every field name. -/
def cfFields (desc : DescriptorProto) : List String :=
  desc.field.map (·.name)

/-- `wo_fields`: for each oneof group, its declared name paired with the
names of its member fields in declaration order. -/
def woFields (desc : DescriptorProto) : List (String × List String) :=
  desc.oneof_decl.enum.map
    (fun p =>
      (p.2.name,
       (desc.field.filter (fun f => f.oneof_index == some p.1)).map (·.name)))

/-- `hf_fields` after `hf_fields.extend(wo_fields.keys())`. -/
def hfAll (fd : FileDescriptorProto) (desc : DescriptorProto) : List String :=
  hfFields fd desc ++ (woFields desc).map (·.1)

/-- `cf_fields` after `cf_fields.extend(wo_fields.keys())`. -/
def cfAll (desc : DescriptorProto) : List String :=
  cfFields desc ++ (woFields desc).map (·.1)

/-- The `u"name",b"name"` literal pair emitted for each union member. -/
def fmtUB (name : String) : String :=
  "u\"" ++ name ++ "\",b\"" ++ name ++ "\""

/-- `hf_fields_text`: sorted, comma-joined literal pairs. -/
def hfFieldsText (fd : FileDescriptorProto) (desc : DescriptorProto) : String :=
  pyJoin "," (pySortStr ((hfAll fd desc).map fmtUB))

/-- `cf_fields_text`: sorted, comma-joined literal pairs. -/
def cfFieldsText (desc : DescriptorProto) : String :=
  pyJoin "," (pySortStr ((cfAll desc).map fmtUB))

/-- The `WhichOneof` overload loop over `sorted(wo_fields.items())`. -/
def writeWhichOneofs (multi : Bool) (items : List (String × List String))
    (s : WriterState) : WriterState :=
  items.foldl
    (fun s it =>
      let s :=
        if multi then
          let p := importAdd s "typing" "overload"
          writeLine p.2 ("@" ++ p.1)
        else s
      let p1 := importAdd s "typing_extensions" "Literal"
      let p2 := importAdd p1.2 "typing_extensions" "Literal"
      writeLine p2.2 ("def WhichOneof(self, oneof_group: " ++ p1.1 ++
        "[u\"" ++ it.1 ++ "\",b\"" ++ it.1 ++ "\"]) -> " ++ p2.1 ++ "[" ++
        pyJoin "," (it.2.map (fun m => "\"" ++ m ++ "\"")) ++ "]: ..."))
    s

/-- `PkgWriter.write_stringly_typed_fields`: the `HasField` / `ClearField` /
`WhichOneof` signatures with literal-string unions.  Note the source builds
these unions from `desc.field`, not from the reserved-word-filtered list. -/
def writeStringlyTypedFields (fd : FileDescriptorProto)
    (desc : DescriptorProto) (s : WriterState) : WriterState :=
  if hfAll fd desc = [] ∧ cfAll desc = [] ∧ woFields desc = [] then s
  else
    let s :=
      if hfAll fd desc ≠ [] then
        let p1 := importAdd s "typing_extensions" "Literal"
        let p2 := builtinAdd p1.2 "bool"
        writeLine p2.2 ("def HasField(self, field_name: " ++ p1.1 ++ "[" ++
          hfFieldsText fd desc ++ "]) -> " ++ p2.1 ++ ": ...")
      else s
    let s :=
      if cfAll desc ≠ [] then
        let p1 := importAdd s "typing_extensions" "Literal"
        writeLine p1.2 ("def ClearField(self, field_name: " ++ p1.1 ++ "[" ++
          cfFieldsText desc ++ "]) -> None: ...")
      else s
    writeWhichOneofs (decide (1 < (woFields desc).length))
      (pySortItems (woFields desc)) s

/-! ## Per-message field emission (`write_messages` loop bodies) -/

/-- The comprehension `[f for f in desc.field if f.name not in
PYTHON_RESERVED]` that feeds the scalar/getter/constructor sections. -/
def pyFilterReserved (fs : List FieldDescriptorProto) :
    List FieldDescriptorProto :=
  fs.filter (fun f => !(PYTHON_RESERVED.contains f.name))

/-- The scalar-field attribute loop: repeated scalars get a
`RepeatedScalarFieldContainer[...]` attribute, singular scalars a bare typed
attribute; non-scalar fields are not visited. -/
def writeScalarFields (ds : Descriptors) (fd : FileDescriptorProto) :
    List FieldDescriptorProto → WriterState → Except String WriterState
  | [], s => .ok s
  | f :: fs, s =>
    if isScalar f then
      if f.label = 3 then
        match pythonType ds fd f (importAdd s
            "google.protobuf.internal.containers"
            "RepeatedScalarFieldContainer").2 with
        | .error e => .error e
        | .ok (t, s1) =>
          writeScalarFields ds fd fs
            (writeLine s1 (f.name ++ ": " ++ (importAdd s
              "google.protobuf.internal.containers"
              "RepeatedScalarFieldContainer").1 ++ "[" ++ t ++ "] = ..."))
      else
        match pythonType ds fd f s with
        | .error e => .error e
        | .ok (t, s1) =>
          writeScalarFields ds fd fs
            (writeLine s1 (f.name ++ ": " ++ t ++ " = ..."))
    else writeScalarFields ds fd fs s

/-- The body of one `@property` accessor for a non-scalar field (after the
`@property` line): repeated fields whose referenced message is a map entry
get a `MutableMapping[key, value]` accessor, other repeated fields a
`RepeatedCompositeFieldContainer[...]` accessor, singular fields a plain
accessor. -/
def writeGetterFieldBody (ds : Descriptors) (fd : FileDescriptorProto)
    (f : FieldDescriptorProto) (s : WriterState) :
    Except String WriterState :=
  if f.label = 3 then
    match List.lookup f.type_name ds.messages with
    | none => .error ("KeyError: " ++ f.type_name)
    | some msg =>
      if msg.options.map_entry then
        match msg.field.get? 0 with
        | none => .error "IndexError: list index out of range"
        | some f0 =>
          match pythonType ds fd f0
              (importAdd s "typing" "MutableMapping").2 with
          | .error e => .error e
          | .ok (t0, s1) =>
            match msg.field.get? 1 with
            | none => .error "IndexError: list index out of range"
            | some f1 =>
              match pythonType ds fd f1 s1 with
              | .error e => .error e
              | .ok (t1, s2) =>
                .ok (writeLine
                  (writeLine s2 ("def " ++ f.name ++ "(self) -> " ++
                    (importAdd s "typing" "MutableMapping").1 ++ "[" ++ t0 ++
                    ", " ++ t1 ++ "]: ...")) "")
      else
        match pythonType ds fd f (importAdd s
            "google.protobuf.internal.containers"
            "RepeatedCompositeFieldContainer").2 with
        | .error e => .error e
        | .ok (t, s1) =>
          .ok (writeLine
            (writeLine s1 ("def " ++ f.name ++ "(self) -> " ++ (importAdd s
              "google.protobuf.internal.containers"
              "RepeatedCompositeFieldContainer").1 ++ "[" ++ t ++
              "]: ...")) "")
  else
    match pythonType ds fd f s with
    | .error e => .error e
    | .ok (t, s1) =>
      .ok (writeLine
        (writeLine s1 ("def " ++ f.name ++ "(self) -> " ++ t ++ ": ...")) "")

/-- One `@property` accessor for a non-scalar field. -/
def writeGetterField (ds : Descriptors) (fd : FileDescriptorProto)
    (f : FieldDescriptorProto) (s : WriterState) :
    Except String WriterState :=
  writeGetterFieldBody ds fd f (writeLine s "@property")

/-- The accessor loop over non-scalar fields. -/
def writeGetterFields (ds : Descriptors) (fd : FileDescriptorProto) :
    List FieldDescriptorProto → WriterState → Except String WriterState
  | [], s => .ok s
  | f :: fs, s =>
    if isScalar f then writeGetterFields ds fd fs s
    else
      match writeGetterField ds fd f s with
      | .error e => .error e
      | .ok s => writeGetterFields ds fd fs s

/-- The `Optional[Iterable[...]]` branch of one constructor parameter. -/
def ctorIterBranch (ds : Descriptors) (fd : FileDescriptorProto)
    (f : FieldDescriptorProto) (s : WriterState) :
    Except String WriterState :=
  match pythonType ds fd f
      (importAdd (importAdd s "typing" "Optional").2 "typing" "Iterable").2
    with
  | .error e => .error e
  | .ok (t, s1) =>
    .ok (writeLine s1 (f.name ++ " : " ++ (importAdd s "typing" "Optional").1
      ++ "[" ++ (importAdd (importAdd s "typing" "Optional").2 "typing"
      "Iterable").1 ++ "[" ++ t ++ "]] = None,"))

/-- One keyword-only constructor parameter. -/
def writeCtorField (ds : Descriptors) (fd : FileDescriptorProto)
    (f : FieldDescriptorProto) (s : WriterState) :
    Except String WriterState :=
  if f.label = 3 then
    match List.lookup f.type_name ds.messages with
    | some msg =>
      if msg.options.map_entry then
        match msg.field.get? 0 with
        | none => .error "IndexError: list index out of range"
        | some f0 =>
          match pythonType ds fd f0
              (importAdd (importAdd s "typing" "Optional").2 "typing"
                "Mapping").2 with
          | .error e => .error e
          | .ok (t0, s1) =>
            match msg.field.get? 1 with
            | none => .error "IndexError: list index out of range"
            | some f1 =>
              match pythonType ds fd f1 s1 with
              | .error e => .error e
              | .ok (t1, s2) =>
                .ok (writeLine s2 (f.name ++ " : " ++
                  (importAdd s "typing" "Optional").1 ++ "[" ++
                  (importAdd (importAdd s "typing" "Optional").2 "typing"
                    "Mapping").1 ++ "[" ++ t0 ++ ", " ++ t1 ++
                  "]] = None,"))
      else ctorIterBranch ds fd f s
    | none => ctorIterBranch ds fd f s
  else
    match pythonType ds fd f (importAdd s "typing" "Optional").2 with
    | .error e => .error e
    | .ok (t, s1) =>
      .ok (writeLine s1 (f.name ++ " : " ++
        (importAdd s "typing" "Optional").1 ++ "[" ++ t ++ "] = None,"))

/-- The constructor parameter loop. -/
def writeCtorFields (ds : Descriptors) (fd : FileDescriptorProto) :
    List FieldDescriptorProto → WriterState → Except String WriterState
  | [], s => .ok s
  | f :: fs, s =>
    match writeCtorField ds fd f s with
    | .error e => .error e
    | .ok s => writeCtorFields ds fd fs s

/-- The opening of one message body: record the local name, emit the class
line, enter the body indent, emit the descriptor attribute and the nested
enums. -/
def writeMessageHeader (message_class : String) (desc : DescriptorProto)
    (pre : String) (s : WriterState) : WriterState :=
  let s := { s with locals := insertOnce s.locals desc.name }
  let s := writeLine s ("class " ++ desc.name ++ "(" ++ message_class ++ "):")
  let s := indentIn s
  let s := writeLine (importAdd s "google.protobuf.descriptor"
    "Descriptor").2 ("DESCRIPTOR: " ++ (importAdd s
    "google.protobuf.descriptor" "Descriptor").1 ++ " = ...")
  writeEnums desc.enum_type (pre ++ desc.name ++ ".") s

/-- The constructor opening: `def __init__(self,`, one indent level, and the
keyword-only marker when at least one field remains. -/
def ctorHeader (fields : List FieldDescriptorProto) (s : WriterState) :
    WriterState :=
  let s := writeLine s "def __init__(self,"
  let s := indentIn s
  if fields.length > 0 then writeLine s "*," else s

/-- The closing of one message body: constructor return line, stringly-typed
signatures, both dedents, the mangled alias line and a blank line. -/
def writeMessageFooter (fd : FileDescriptorProto) (desc : DescriptorProto)
    (s : WriterState) : WriterState :=
  let s := writeLine s ") -> None: ..."
  let s := indentOut s
  let s := writeStringlyTypedFields fd desc s
  let s := indentOut s
  let s := writeLine s (mangleMessage desc.name ++ " = " ++ desc.name)
  writeLine s ""

mutual

/-- `PkgWriter.write_messages`: the `Message` base class is imported once,
then each non-reserved message is emitted. -/
def writeMessages (ds : Descriptors) (fd : FileDescriptorProto)
    (messages : List DescriptorProto) (pre : String) (s : WriterState) :
    Except String WriterState :=
  writeMessagesLoop ds fd
    (importAdd s "google.protobuf.message" "Message").1 messages pre
    (importAdd s "google.protobuf.message" "Message").2
termination_by (sizeOf messages, 1)

/-- The `for desc in [m for m in messages if m.name not in PYTHON_RESERVED]`
loop of `write_messages`. -/
def writeMessagesLoop (ds : Descriptors) (fd : FileDescriptorProto)
    (message_class : String) (messages : List DescriptorProto) (pre : String)
    (s : WriterState) : Except String WriterState :=
  match messages with
  | [] => .ok s
  | m :: ms =>
    if m.name ∈ PYTHON_RESERVED then
      writeMessagesLoop ds fd message_class ms pre s
    else
      match writeMessage ds fd message_class m pre s with
      | .error e => .error e
      | .ok s => writeMessagesLoop ds fd message_class ms pre s
termination_by (sizeOf messages, 0)

/-- One message body: class line, descriptor attribute, nested enums, nested
messages (recursively, with the qualified name as prefix), scalar
attributes, accessors, constructor, and stringly-typed signatures. -/
def writeMessage (ds : Descriptors) (fd : FileDescriptorProto)
    (message_class : String) (desc : DescriptorProto) (pre : String)
    (s : WriterState) : Except String WriterState :=
  match writeMessages ds fd desc.nested_type (pre ++ desc.name ++ ".")
      (writeMessageHeader message_class desc pre s) with
  | .error e => .error e
  | .ok s1 =>
    match writeScalarFields ds fd (pyFilterReserved desc.field) s1 with
    | .error e => .error e
    | .ok s2 =>
      match writeGetterFields ds fd (pyFilterReserved desc.field)
          (writeLine s2 "") with
      | .error e => .error e
      | .ok s3 =>
        match writeCtorFields ds fd (pyFilterReserved desc.field)
            (ctorHeader (pyFilterReserved desc.field) s3) with
        | .error e => .error e
        | .ok s4 => .ok (writeMessageFooter fd desc s4)
termination_by (sizeOf desc, 0)
decreasing_by
  apply Prod.Lex.left
  cases desc
  simp
  omega

end

/-- A fuel-indexed unfolding of the message-writing recursion: component one
writes one message body, component two runs the non-reserved-message loop;
the fuel bounds the recursion depth. -/
def writeMessageF (ds : Descriptors) (fd : FileDescriptorProto) :
    Nat →
    (String → DescriptorProto → String → WriterState →
        Except String WriterState) ×
      (String → List DescriptorProto → String → WriterState →
        Except String WriterState)
  | 0 =>
    (fun _ _ _ _ => .error "out of fuel", fun _ _ _ _ => .error "out of fuel")
  | fuel + 1 =>
    (fun message_class desc pre s =>
      match (writeMessageF ds fd fuel).2
          (importAdd (writeMessageHeader message_class desc pre s)
            "google.protobuf.message" "Message").1
          desc.nested_type (pre ++ desc.name ++ ".")
          (importAdd (writeMessageHeader message_class desc pre s)
            "google.protobuf.message" "Message").2 with
      | .error e => .error e
      | .ok s1 =>
        match writeScalarFields ds fd (pyFilterReserved desc.field) s1 with
        | .error e => .error e
        | .ok s2 =>
          match writeGetterFields ds fd (pyFilterReserved desc.field)
              (writeLine s2 "") with
          | .error e => .error e
          | .ok s3 =>
            match writeCtorFields ds fd (pyFilterReserved desc.field)
                (ctorHeader (pyFilterReserved desc.field) s3) with
            | .error e => .error e
            | .ok s4 => .ok (writeMessageFooter fd desc s4),
     fun message_class messages pre s =>
      match messages with
      | [] => .ok s
      | m :: ms =>
        if m.name ∈ PYTHON_RESERVED then
          (writeMessageF ds fd fuel).2 message_class ms pre s
        else
          match (writeMessageF ds fd fuel).1 message_class m pre s with
          | .error e => .error e
          | .ok s => (writeMessageF ds fd fuel).2 message_class ms pre s)

/-- The fuel-indexed unfolding agrees with the recursion once the fuel
reaches the size of the processed descriptors. -/
theorem writeMessageF_spec (ds : Descriptors) (fd : FileDescriptorProto) :
    ∀ fuel : Nat,
      (∀ (mc : String) (desc : DescriptorProto) (pre : String)
          (s : WriterState), sizeOf desc ≤ fuel →
        (writeMessageF ds fd fuel).1 mc desc pre s =
          writeMessage ds fd mc desc pre s) ∧
      (∀ (mc : String) (messages : List DescriptorProto) (pre : String)
          (s : WriterState), sizeOf messages ≤ fuel →
        (writeMessageF ds fd fuel).2 mc messages pre s =
          writeMessagesLoop ds fd mc messages pre s) := by
  intro fuel
  induction fuel with
  | zero =>
    constructor
    · intro mc desc pre s h
      cases desc
      simp at h
    · intro mc messages pre s h
      cases messages <;> simp at h
  | succ f ih =>
    constructor
    · intro mc desc pre s h
      have hn : sizeOf desc.nested_type ≤ f := by
        cases desc
        simp at h ⊢
        omega
      simp only [writeMessageF]
      rw [writeMessage, writeMessages, ih.2 _ _ _ _ hn]
    · intro mc messages pre s h
      cases messages with
      | nil =>
        simp only [writeMessageF]
        rw [writeMessagesLoop]
      | cons m ms =>
        have hm : sizeOf m ≤ f := by
          simp at h
          omega
        have hms : sizeOf ms ≤ f := by
          simp at h
          omega
        simp only [writeMessageF]
        rw [writeMessagesLoop]
        split
        · exact ih.2 _ _ _ _ hms
        · rw [ih.1 _ _ _ _ hm]
          cases writeMessage ds fd mc m pre s with
          | error e => rfl
          | ok s1 => exact ih.2 _ _ _ _ hms

/-- The entry point of the recursion, evaluated through the fuel-indexed
unfolding. -/
def writeMessagesFuel (fuel : Nat) (ds : Descriptors)
    (fd : FileDescriptorProto) (messages : List DescriptorProto)
    (pre : String) (s : WriterState) : Except String WriterState :=
  (writeMessageF ds fd fuel).2
    (importAdd s "google.protobuf.message" "Message").1 messages pre
    (importAdd s "google.protobuf.message" "Message").2

/-- With enough fuel the fuel-indexed entry point computes
`write_messages`. -/
theorem writeMessagesFuel_spec (fuel : Nat) (ds : Descriptors)
    (fd : FileDescriptorProto) (messages : List DescriptorProto)
    (pre : String) (s : WriterState) (h : sizeOf messages ≤ fuel) :
    writeMessagesFuel fuel ds fd messages pre s =
      writeMessages ds fd messages pre s := by
  rw [writeMessagesFuel, writeMessages]
  exact (writeMessageF_spec ds fd fuel).2 _ _ _ _ h

/-- `PkgWriter.write_extensions`: nothing for an empty list, otherwise one
`FieldDescriptor` attribute per extension (no reserved-word filter here). -/
def writeExtensions (extensions : List FieldDescriptorProto)
    (s : WriterState) : WriterState :=
  if extensions = [] then s
  else
    let p := importAdd s "google.protobuf.descriptor" "FieldDescriptor"
    extensions.foldl
      (fun s ext =>
        writeLine (writeLine s (ext.name ++ ": " ++ p.1 ++ " = ...")) "")
      p.2

/-- One synchronous service method of `write_methods`. -/
def writeMethod (ds : Descriptors) (fd : FileDescriptorProto)
    (is_abstract : Bool) (method : MethodDescriptorProto) (s : WriterState) :
    Except String WriterState :=
  let s :=
    if is_abstract then
      let p := importAdd s "abc" "abstractmethod"
      writeLine p.2 ("@" ++ p.1)
    else s
  let s := writeLine s ("def " ++ method.name ++ "(self,")
  let s := indentIn s
  let p1 := importAdd s "google.protobuf.service" "RpcController"
  let s := writeLine p1.2 ("rpc_controller: " ++ p1.1 ++ ",")
  match importMessage ds fd method.input_type s with
  | .error e => .error e
  | .ok (inT, s) =>
    let s := writeLine s ("request: " ++ inT ++ ",")
    let p2 := importAdd s "typing" "Optional"
    let p3 := importAdd p2.2 "typing" "Callable"
    match importMessage ds fd method.output_type p3.2 with
    | .error e => .error e
    | .ok (outT, s) =>
      let s := writeLine s ("done: " ++ p2.1 ++ "[" ++ p3.1 ++ "[[" ++ outT ++
        "], None]],")
      let s := indentOut s
      let p4 := importAdd s "concurrent.futures" "Future"
      match importMessage ds fd method.output_type p4.2 with
      | .error e => .error e
      | .ok (outT2, s) =>
        .ok (writeLine s (") -> " ++ p4.1 ++ "[" ++ outT2 ++ "]: ..."))

/-- The loop of `write_methods` over the reserved-filtered method list. -/
def writeMethodsLoop (ds : Descriptors) (fd : FileDescriptorProto)
    (is_abstract : Bool) : List MethodDescriptorProto → WriterState →
    Except String WriterState
  | [], s => .ok s
  | m :: ms, s =>
    match writeMethod ds fd is_abstract m s with
    | .error e => .error e
    | .ok s => writeMethodsLoop ds fd is_abstract ms s

/-- `PkgWriter.write_methods`: reserved-word method names are dropped; an
empty remainder emits `pass`. -/
def writeMethods (ds : Descriptors) (fd : FileDescriptorProto)
    (service : ServiceDescriptorProto) (is_abstract : Bool)
    (s : WriterState) : Except String WriterState :=
  let methods := service.method.filter
    (fun m => !(PYTHON_RESERVED.contains m.name))
  let s := if methods = [] then writeLine s "pass" else s
  writeMethodsLoop ds fd is_abstract methods s

/-- `PkgWriter.write_services`: for each non-reserved service, an abstract
interface class and a `_Stub` subclass. -/
def writeServices (ds : Descriptors) (fd : FileDescriptorProto) :
    List ServiceDescriptorProto → WriterState → Except String WriterState
  | [], s => .ok s
  | service :: rest, s =>
    if service.name ∈ PYTHON_RESERVED then writeServices ds fd rest s
    else
      let p1 := importAdd s "google.protobuf.service" "Service"
      let p2 := importAdd p1.2 "abc" "ABCMeta"
      let s := writeLine p2.2 ("class " ++ service.name ++ "(" ++ p1.1 ++
        ", metaclass=" ++ p2.1 ++ "):")
      let s := indentIn s
      match writeMethods ds fd service true s with
      | .error e => .error e
      | .ok s =>
        let s := indentOut s
        let s := writeLine s ("class " ++ service.name ++ "_Stub(" ++
          service.name ++ "):")
        let s := indentIn s
        let p3 := importAdd s "google.protobuf.service" "RpcChannel"
        let s := writeLine p3.2 ("def __init__(self, rpc_channel: " ++ p3.1 ++
          ") -> None: ...")
        match writeMethods ds fd service false s with
        | .error e => .error e
        | .ok s => writeServices ds fd rest (indentOut s)

/-- `PkgWriter._output_type`: the resolved output message, wrapped in a
`Generator[..., None, None]` for server-streaming methods. -/
def outputType (ds : Descriptors) (fd : FileDescriptorProto)
    (method : MethodDescriptorProto) (s : WriterState) :
    Except String (String × WriterState) :=
  match importMessage ds fd method.output_type s with
  | .error e => .error e
  | .ok (result, s) =>
    if method.server_streaming then
      let p := importAdd s "typing" "Generator"
      .ok (p.1 ++ "[" ++ result ++ ", None, None]", p.2)
    else .ok (result, s)

/-- The loop of `write_grpc_methods`. -/
def writeGrpcMethodsLoop (ds : Descriptors) (fd : FileDescriptorProto) :
    List MethodDescriptorProto → WriterState → Except String WriterState
  | [], s => .ok s
  | method :: ms, s =>
    let p := importAdd s "abc" "abstractmethod"
    let s := writeLine p.2 ("@" ++ p.1)
    let s := writeLine s ("def " ++ method.name ++ "(self,")
    let s := indentIn s
    match importMessage ds fd method.input_type s with
    | .error e => .error e
    | .ok (inT, s) =>
      let s := writeLine s ("request: " ++ inT ++ ",")
      let p2 := importAdd s "grpc" "ServicerContext"
      let s := writeLine p2.2 ("context: " ++ p2.1 ++ ",")
      let s := indentOut s
      match outputType ds fd method s with
      | .error e => .error e
      | .ok (t, s) =>
        let s := writeLine s (") -> " ++ t ++ ": ...")
        writeGrpcMethodsLoop ds fd ms (writeLine s "")

/-- `PkgWriter.write_grpc_methods`. -/
def writeGrpcMethods (ds : Descriptors) (fd : FileDescriptorProto)
    (service : ServiceDescriptorProto) (s : WriterState) :
    Except String WriterState :=
  let methods := service.method.filter
    (fun m => !(PYTHON_RESERVED.contains m.name))
  let s := if methods = [] then writeLine (writeLine s "pass") "" else s
  writeGrpcMethodsLoop ds fd methods s

/-- The loop of `write_grpc_stub_methods`. -/
def writeGrpcStubMethodsLoop (ds : Descriptors) (fd : FileDescriptorProto) :
    List MethodDescriptorProto → WriterState → Except String WriterState
  | [], s => .ok s
  | method :: ms, s =>
    let s := writeLine s ("def " ++ method.name ++ "(self,")
    let s := indentIn s
    match importMessage ds fd method.input_type s with
    | .error e => .error e
    | .ok (inT, s) =>
      let s := writeLine s ("request: " ++ inT ++ ",")
      let s := indentOut s
      match outputType ds fd method s with
      | .error e => .error e
      | .ok (t, s) =>
        let s := writeLine s (") -> " ++ t ++ ": ...")
        writeGrpcStubMethodsLoop ds fd ms (writeLine s "")

/-- `PkgWriter.write_grpc_stub_methods`. -/
def writeGrpcStubMethods (ds : Descriptors) (fd : FileDescriptorProto)
    (service : ServiceDescriptorProto) (s : WriterState) :
    Except String WriterState :=
  let methods := service.method.filter
    (fun m => !(PYTHON_RESERVED.contains m.name))
  let s := if methods = [] then writeLine (writeLine s "pass") "" else s
  writeGrpcStubMethodsLoop ds fd methods s

/-- The service loop of `write_grpc_services`. -/
def writeGrpcServicesLoop (ds : Descriptors) (fd : FileDescriptorProto) :
    List ServiceDescriptorProto → WriterState → Except String WriterState
  | [], s => .ok s
  | service :: rest, s =>
    if service.name ∈ PYTHON_RESERVED then writeGrpcServicesLoop ds fd rest s
    else
      let p := importAdd s "abc" "ABCMeta"
      let s := writeLine p.2 ("class " ++ service.name ++
        "Servicer(metaclass=" ++ p.1 ++ "):")
      let s := indentIn s
      match writeGrpcMethods ds fd service s with
      | .error e => .error e
      | .ok s =>
        let s := indentOut s
        let s := writeLine s ""
        let s := writeLine s ("class " ++ service.name ++ "Stub:")
        let s := indentIn s
        let p2 := importAdd s "grpc" "Channel"
        let s := writeLine p2.2 ("def __init__(self, channel: " ++ p2.1 ++
          ") -> None: ...")
        match writeGrpcStubMethods ds fd service s with
        | .error e => .error e
        | .ok s =>
          let s := indentOut s
          writeGrpcServicesLoop ds fd rest (writeLine s "")

/-- `PkgWriter.write_grpc_services`: the relative wildcard re-export of the
general stub module for the same file (computed via `rsplit('/', 1)[1]`,
which raises `IndexError` when the file name has no slash), followed by the
`*Servicer` / `*Stub` classes. -/
def writeGrpcServices (ds : Descriptors) (fd : FileDescriptorProto)
    (services : List ServiceDescriptorProto) (s : WriterState) :
    Except String WriterState :=
  match (pyRsplitSlash1 fd.name).get? 1 with
  | none => .error "IndexError: list index out of range"
  | some base =>
    let s := writeLine s ("from ." ++
      pyReplaceChar (pyDropRight base 6) '-' "_" ++ "_pb2" ++ " import *")
    writeGrpcServicesLoop ds fd services s

/-! ## Rendering the import block and the final text (`PkgWriter.write`) -/

/-- The first rendered line of the import block. -/
def importSysLine : String := "import sys"

/-- The distinct import modules in `sorted` order (the Python
`sorted(six.iteritems(self.imports))` over distinct dict keys). -/
def sortedModules (s : WriterState) : List String :=
  pySortStr ((s.imports.map (·.1)).dedup)

/-- The `(name, mangled)` items recorded for one module, in `sorted` order. -/
def moduleItems (s : WriterState) (pkg : String) : List (String × String) :=
  pySortPairs ((s.imports.filter (fun t => t.1 == pkg)).map
    (fun t => (t.2.1, t.2.2)))

/-- The rendered import block: modules sorted lexicographically, one
`name as mangled` line per recorded `(module, symbol)` pair, symbols sorted
within each module. -/
def renderImports (s : WriterState) : List String :=
  [importSysLine] ++
  (sortedModules s).flatMap
    (fun pkg =>
      ("from " ++ pkg ++ " import (") ::
      ((moduleItems s pkg).map
        (fun it => "    " ++ it.1 ++ " as " ++ it.2 ++ ",") ++ [")\n"])) ++
  [""]

/-- The rendered builtin alias block. -/
def renderAliases (s : WriterState) : List String :=
  let aliases :=
    (pySortStr s.builtin_vars).map (fun v => mangleBuiltin v ++ " = " ++ v) ++
    (if s.py2_builtin_vars ≠ [] then
      "if sys.version_info < (3,):" ::
      (pySortStr s.py2_builtin_vars).map
        (fun v => "    " ++ mangleBuiltin v ++ " = " ++ v)
    else [])
  aliases ++ (if aliases ≠ [] then ["\n"] else [])

/-- `PkgWriter.write`: imports, aliases, then the accumulated lines. -/
def writeOut (s : WriterState) : String :=
  pyJoin "\n" (renderImports s ++ renderAliases s ++ s.lines)

/-! ## Response assembly (`generate_mypy_stubs` / `generate_mypy_grpc_stubs`) -/

/-- One response entry of `generate_mypy_stubs`: run the writer over the
file, then derive the output filename (strip `.proto`, `-` to `_`, `.` to
`/`, append `_pb2.pyi`) and prepend the header to the content. -/
def generateStubEntry (ds : Descriptors) (name : String)
    (fd : FileDescriptorProto) : Except String (String × String) :=
  match writeMessages ds fd fd.message_type ""
      (writeEnums fd.enum_type "" (writeModuleAttributes initState)) with
  | .error e => .error e
  | .ok s1 =>
    match
      (if fd.options.py_generic_services then
        writeServices ds fd fd.service (writeExtensions fd.extension s1)
       else .ok (writeExtensions fd.extension s1)) with
    | .error e => .error e
    | .ok s2 =>
      if name ≠ fd.name then .error "AssertionError"
      else if ¬ pyEndsWith fd.name ".proto" then .error "AssertionError"
      else
        .ok (pyReplaceChar (pyReplaceChar (pyDropRight fd.name 6) '-' "_")
               '.' "/" ++ "_pb2.pyi",
             HEADER ++ writeOut s2)

/-- The file loop of `generate_mypy_stubs`. -/
def generateMypyStubsList (ds : Descriptors) :
    List (String × FileDescriptorProto) →
    Except String (List (String × String))
  | [] => .ok []
  | (name, fd) :: rest =>
    match generateStubEntry ds name fd with
    | .error e => .error e
    | .ok entry =>
      match generateMypyStubsList ds rest with
      | .error e => .error e
      | .ok entries => .ok (entry :: entries)

/-- `generate_mypy_stubs`: response entries for every file to generate. -/
def generateMypyStubs (ds : Descriptors) :
    Except String (List (String × String)) :=
  generateMypyStubsList ds ds.to_generate

/-- One response entry of `generate_mypy_grpc_stubs`. -/
def generateGrpcStubEntry (ds : Descriptors) (name : String)
    (fd : FileDescriptorProto) : Except String (String × String) :=
  match writeGrpcServices ds fd fd.service initState with
  | .error e => .error e
  | .ok s =>
    if name ≠ fd.name then .error "AssertionError"
    else if ¬ pyEndsWith fd.name ".proto" then .error "AssertionError"
    else
      .ok (pyReplaceChar (pyReplaceChar (pyDropRight fd.name 6) '-' "_")
             '.' "/" ++ "_pb2_grpc.pyi",
           HEADER ++ writeOut s)

/-- The file loop of `generate_mypy_grpc_stubs`. -/
def generateMypyGrpcStubsList (ds : Descriptors) :
    List (String × FileDescriptorProto) →
    Except String (List (String × String))
  | [] => .ok []
  | (name, fd) :: rest =>
    match generateGrpcStubEntry ds name fd with
    | .error e => .error e
    | .ok entry =>
      match generateMypyGrpcStubsList ds rest with
      | .error e => .error e
      | .ok entries => .ok (entry :: entries)

/-- `generate_mypy_grpc_stubs`. -/
def generateMypyGrpcStubs (ds : Descriptors) :
    Except String (List (String × String)) :=
  generateMypyGrpcStubsList ds ds.to_generate

/-! ## Indentation bookkeeping lemmas -/

theorem take_append_four {α : Type} (d e : List α) (h : e.length = 4) :
    List.take ((d ++ e).length - 4) (d ++ e) = d := by
  rw [List.length_append, h, Nat.add_sub_cancel, List.take_left]

theorem pyDropRight_four (x : String) : pyDropRight (x ++ "    ") 4 = x := by
  cases x with
  | mk d =>
    show String.mk (List.take _ _) = String.mk d
    exact congrArg String.mk (take_append_four d "    ".data rfl)

theorem writeLine_indent (s : WriterState) (l : String) :
    (writeLine s l).indent = s.indent := by
  unfold writeLine; split <;> rfl

theorem importAdd_indent (s : WriterState) (p n : String) :
    (importAdd s p n).2.indent = s.indent := rfl

theorem builtinAdd_indent (s : WriterState) (n : String) :
    (builtinAdd s n).2.indent = s.indent := by
  unfold builtinAdd; split <;> rfl

theorem writeEnumValues_indent (vals : List EnumValueDescriptorProto)
    (fn : String) (s : WriterState) :
    (writeEnumValues vals fn s).indent = s.indent := by
  induction vals generalizing s with
  | nil => rfl
  | cons v vs ih =>
    rw [show writeEnumValues (v :: vs) fn s
        = writeEnumValues vs fn
          (if v.name ∈ PYTHON_RESERVED then s
           else
             let p := importAdd s "typing" "cast"
             writeLine p.2 (v.name ++ " = " ++ p.1 ++ "(" ++ fn ++ ", " ++
               toString v.number ++ ")")) from rfl]
    rw [ih]
    by_cases h : v.name ∈ PYTHON_RESERVED
    · simp [h]
    · simp [h, writeLine_indent, importAdd_indent]

theorem writeEnums_indent (enums : List EnumDescriptorProto) (pre : String)
    (s : WriterState) : (writeEnums enums pre s).indent = s.indent := by
  induction enums generalizing s with
  | nil => rfl
  | cons e es ih =>
    rw [show writeEnums (e :: es) pre s = writeEnums es pre
        ((fun s enum =>
          if enum.name ∈ PYTHON_RESERVED then s
          else
            let enum_value_type := enum.name ++ "Value"
            let p1 := importAdd s "typing" "NewType"
            let p2 := builtinAdd p1.2 "int"
            let s := writeLine p2.2 (enum_value_type ++ " = " ++ p1.1 ++ "(" ++
              sq ++ enum_value_type ++ sq ++ ", " ++ p2.1 ++ ")")
            let s := writeLine s (mangleMessage enum_value_type ++ " = " ++
              enum_value_type)
            let enum_value_full_type := pre ++ enum_value_type
            let s := writeLine s (enum.name ++ ": " ++ "_" ++ enum.name)
            let p3 := importAdd s "google.protobuf.internal.enum_type_wrapper"
              "_EnumTypeWrapper"
            let s := writeLine p3.2 ("class _" ++ enum.name ++ "(" ++ p3.1 ++
              "[" ++ enum_value_full_type ++ "]):")
            let s := indentIn s
            let p4 := importAdd s "google.protobuf.descriptor" "EnumDescriptor"
            let s := writeLine p4.2 ("DESCRIPTOR: " ++ p4.1 ++ " = ...")
            let s := writeEnumValues enum.value enum_value_full_type s
            let s := indentOut s
            let s := writeEnumValues enum.value enum_value_full_type s
            let s := writeLine s (mangleMessage enum.name ++ " = " ++ enum.name)
            writeLine s "") s e) from rfl]
    rw [ih]
    by_cases h : e.name ∈ PYTHON_RESERVED
    · simp [h]
    · simp only [h, if_false]
      simp only [writeLine_indent, writeEnumValues_indent, indentOut,
        importAdd_indent, builtinAdd_indent, indentIn]
      exact pyDropRight_four _

theorem importMessageExternal_state {mfd : FileDescriptorProto}
    {n' : String} {s : WriterState} {t : String} {s' : WriterState}
    (h : importMessageExternal mfd n' s = .ok (t, s')) :
    s' = (importAdd s (externalModule mfd)
      ((pySplitChar n' '.').headD "")).2 := by
  unfold importMessageExternal at h
  split at h <;>
    exact (congrArg Prod.snd (Except.ok.inj h)).symm

theorem importMessage_indent {ds : Descriptors} {fd : FileDescriptorProto}
    {n : String} {s : WriterState} {t : String} {s' : WriterState}
    (h : importMessage ds fd n s = .ok (t, s')) : s'.indent = s.indent := by
  unfold importMessage at h
  split at h
  · cases h
  · split at h
    · cases h
    · split at h
      · cases h
      · split at h
        · have h2 : s = s' := congrArg Prod.snd (Except.ok.inj h)
          rw [← h2]
        · rw [importMessageExternal_state h]
          exact importAdd_indent ..

theorem scalarBuiltins_indent (s : WriterState) :
    (scalarBuiltins s).indent = s.indent := by
  unfold scalarBuiltins
  rw [builtinAdd_indent, builtinAdd_indent, builtinAdd_indent,
    builtinAdd_indent]

theorem pythonType_indent {ds : Descriptors} {fd : FileDescriptorProto}
    {f : FieldDescriptorProto} {s : WriterState} {t : String}
    {s' : WriterState} (h : pythonType ds fd f s = .ok (t, s')) :
    s'.indent = s.indent := by
  unfold pythonType at h
  repeat' split at h
  all_goals
    first
    | (exact (importMessage_indent h).trans (scalarBuiltins_indent s))
    | (cases h <;> exact scalarBuiltins_indent s)

theorem writeScalarFields_indent {ds : Descriptors} {fd : FileDescriptorProto}
    : ∀ {fs : List FieldDescriptorProto} {s s' : WriterState},
    writeScalarFields ds fd fs s = .ok s' → s'.indent = s.indent := by
  intro fs
  induction fs with
  | nil => intro s s' h; cases h; rfl
  | cons f fs ih =>
    intro s s' h
    unfold writeScalarFields at h
    split at h
    · split at h
      · split at h
        · cases h
        · rename_i t s1 hpt
          rw [ih h, writeLine_indent,
            (pythonType_indent hpt).trans (importAdd_indent ..)]
      · split at h
        · cases h
        · rename_i t s1 hpt
          rw [ih h, writeLine_indent, pythonType_indent hpt]
    · exact ih h

theorem writeGetterFieldBody_indent {ds : Descriptors}
    {fd : FileDescriptorProto} {f : FieldDescriptorProto}
    {s s' : WriterState} (h : writeGetterFieldBody ds fd f s = .ok s') :
    s'.indent = s.indent := by
  unfold writeGetterFieldBody at h
  repeat' split at h
  all_goals try cases h
  all_goals
    first
    | (rename_i x2 t0 s1a hpt0 x1 f1 hg1 x0 t1 s1b hpt1
       rw [writeLine_indent, writeLine_indent, pythonType_indent hpt1,
         pythonType_indent hpt0, importAdd_indent])
    | (rename_i x0 t0 s1a hpt
       rw [writeLine_indent, writeLine_indent, pythonType_indent hpt,
         importAdd_indent])
    | (rename_i x0 t0 s1a hpt
       rw [writeLine_indent, writeLine_indent, pythonType_indent hpt])

theorem writeGetterField_indent {ds : Descriptors} {fd : FileDescriptorProto}
    {f : FieldDescriptorProto} {s s' : WriterState}
    (h : writeGetterField ds fd f s = .ok s') : s'.indent = s.indent := by
  rw [writeGetterFieldBody_indent h, writeLine_indent]

theorem writeGetterFields_indent {ds : Descriptors} {fd : FileDescriptorProto}
    : ∀ {fs : List FieldDescriptorProto} {s s' : WriterState},
    writeGetterFields ds fd fs s = .ok s' → s'.indent = s.indent := by
  intro fs
  induction fs with
  | nil => intro s s' h; cases h; rfl
  | cons f fs ih =>
    intro s s' h
    unfold writeGetterFields at h
    split at h
    · exact ih h
    · split at h
      · cases h
      · rename_i s1 hg
        rw [ih h, writeGetterField_indent hg]

theorem ctorIterBranch_indent {ds : Descriptors} {fd : FileDescriptorProto}
    {f : FieldDescriptorProto} {s s' : WriterState}
    (h : ctorIterBranch ds fd f s = .ok s') : s'.indent = s.indent := by
  unfold ctorIterBranch at h
  split at h
  · cases h
  · rename_i t s1 hpt
    cases h
    rw [writeLine_indent, (pythonType_indent hpt).trans
      ((importAdd_indent ..).trans (importAdd_indent ..))]

theorem writeCtorField_indent {ds : Descriptors} {fd : FileDescriptorProto}
    {f : FieldDescriptorProto} {s s' : WriterState}
    (h : writeCtorField ds fd f s = .ok s') : s'.indent = s.indent := by
  unfold writeCtorField at h
  repeat' split at h
  all_goals try exact ctorIterBranch_indent h
  all_goals try cases h
  all_goals
    first
    | (rename_i x2 t0 s1a hpt0 x1 f1 hg1 x0 t1 s1b hpt1
       rw [writeLine_indent, pythonType_indent hpt1, pythonType_indent hpt0,
         importAdd_indent, importAdd_indent])
    | (rename_i x0 t0 s1a hpt
       rw [writeLine_indent, pythonType_indent hpt, importAdd_indent])

theorem writeCtorFields_indent {ds : Descriptors} {fd : FileDescriptorProto}
    : ∀ {fs : List FieldDescriptorProto} {s s' : WriterState},
    writeCtorFields ds fd fs s = .ok s' → s'.indent = s.indent := by
  intro fs
  induction fs with
  | nil => intro s s' h; cases h; rfl
  | cons f fs ih =>
    intro s s' h
    unfold writeCtorFields at h
    split at h
    · cases h
    · rename_i s1 hc
      rw [ih h, writeCtorField_indent hc]

theorem writeWhichOneofs_indent (multi : Bool)
    (items : List (String × List String)) (s : WriterState) :
    (writeWhichOneofs multi items s).indent = s.indent := by
  induction items generalizing s with
  | nil => rfl
  | cons it its ih =>
    rw [show writeWhichOneofs multi (it :: its) s = writeWhichOneofs multi its
        ((fun s (it : String × List String) =>
          let s :=
            if multi then
              let p := importAdd s "typing" "overload"
              writeLine p.2 ("@" ++ p.1)
            else s
          let p1 := importAdd s "typing_extensions" "Literal"
          let p2 := importAdd p1.2 "typing_extensions" "Literal"
          writeLine p2.2 ("def WhichOneof(self, oneof_group: " ++ p1.1 ++
            "[u\"" ++ it.1 ++ "\",b\"" ++ it.1 ++ "\"]) -> " ++ p2.1 ++ "[" ++
            pyJoin "," (it.2.map (fun m => "\"" ++ m ++ "\"")) ++ "]: ..."))
          s it) from rfl]
    rw [ih]
    by_cases hm : multi = true <;>
      simp [hm, writeLine_indent, importAdd_indent]

theorem writeStringlyTypedFields_indent (fd : FileDescriptorProto)
    (desc : DescriptorProto) (s : WriterState) :
    (writeStringlyTypedFields fd desc s).indent = s.indent := by
  unfold writeStringlyTypedFields
  split
  · rfl
  · rw [writeWhichOneofs_indent]
    split <;> split <;>
      simp [writeLine_indent, importAdd_indent, builtinAdd_indent]

theorem writeMessageHeader_indent (message_class : String)
    (desc : DescriptorProto) (pre : String) (s : WriterState) :
    (writeMessageHeader message_class desc pre s).indent =
      s.indent ++ "    " := by
  unfold writeMessageHeader
  rw [writeEnums_indent, writeLine_indent, importAdd_indent]
  rfl

theorem ctorHeader_indent (fields : List FieldDescriptorProto)
    (s : WriterState) : (ctorHeader fields s).indent = s.indent ++ "    " := by
  unfold ctorHeader
  split <;> simp [writeLine_indent, indentIn]

theorem indentOut_indent (s : WriterState) :
    (indentOut s).indent = pyDropRight s.indent 4 := rfl

theorem writeMessageFooter_indent (fd : FileDescriptorProto)
    (desc : DescriptorProto) {s : WriterState} {x : String}
    (h : s.indent = x ++ "    " ++ "    ") :
    (writeMessageFooter fd desc s).indent = x := by
  unfold writeMessageFooter
  simp only [writeLine_indent, indentOut_indent,
    writeStringlyTypedFields_indent]
  rw [h, pyDropRight_four, pyDropRight_four]

theorem writeMessage_indent (ds : Descriptors) (fd : FileDescriptorProto) :
    ∀ (mc : String) (desc : DescriptorProto) (pre : String) (s : WriterState),
    ∀ s', writeMessage ds fd mc desc pre s = .ok s' →
    s'.indent = s.indent := by
  refine writeMessage.induct ds fd
    (fun messages pre s => ∀ s',
      writeMessages ds fd messages pre s = .ok s' → s'.indent = s.indent)
    (fun mc messages pre s => ∀ s',
      writeMessagesLoop ds fd mc messages pre s = .ok s' →
      s'.indent = s.indent)
    (fun mc desc pre s => ∀ s',
      writeMessage ds fd mc desc pre s = .ok s' → s'.indent = s.indent)
    ?_ ?_ ?_ ?_ ?_ ?_ ?_ ?_ ?_ ?_
  · intro messages pre s ih s' h
    unfold writeMessages at h
    exact (ih s' h).trans (importAdd_indent ..)
  · intro mc pre s s' h
    simp only [writeMessagesLoop] at h
    cases h
    rfl
  · intro mc pre s m ms hmem ih s' h
    simp only [writeMessagesLoop] at h
    rw [if_pos hmem] at h
    exact ih s' h
  · intro mc pre s m ms hmem e herr ih s' h
    simp only [writeMessagesLoop] at h
    rw [if_neg hmem, herr] at h
    simp only [] at h
    cases h
  · intro mc pre s m ms hmem s1 hok ihm ihl s' h
    simp only [writeMessagesLoop] at h
    rw [if_neg hmem, hok] at h
    simp only [] at h
    exact (ihl s' h).trans (ihm s1 hok)
  · intro mc desc pre s e hn ih s' h
    simp only [writeMessage] at h
    rw [hn] at h
    simp only [] at h
    cases h
  · intro mc desc pre s s1 hn e hsc ih s' h
    simp only [writeMessage] at h
    rw [hn] at h
    simp only [] at h
    rw [hsc] at h
    simp only [] at h
    cases h
  · intro mc desc pre s s1 hn s2 hsc e hget ih s' h
    simp only [writeMessage] at h
    rw [hn] at h
    simp only [] at h
    rw [hsc] at h
    simp only [] at h
    rw [hget] at h
    simp only [] at h
    cases h
  · intro mc desc pre s s1 hn s2 hsc s3 hget e hctor ih s' h
    simp only [writeMessage] at h
    rw [hn] at h
    simp only [] at h
    rw [hsc] at h
    simp only [] at h
    rw [hget] at h
    simp only [] at h
    rw [hctor] at h
    simp only [] at h
    cases h
  · intro mc desc pre s s1 hn s2 hsc s3 hget s4 hctor ih s' h
    simp only [writeMessage] at h
    rw [hn] at h
    simp only [] at h
    rw [hsc] at h
    simp only [] at h
    rw [hget] at h
    simp only [] at h
    rw [hctor] at h
    simp only [] at h
    cases h
    have h1 : s1.indent = s.indent ++ "    " :=
      (ih s1 hn).trans (writeMessageHeader_indent ..)
    have h2 : s2.indent = s1.indent := writeScalarFields_indent hsc
    have h3 : s3.indent = s2.indent :=
      (writeGetterFields_indent hget).trans (writeLine_indent ..)
    have h4 : s4.indent = s3.indent ++ "    " :=
      (writeCtorFields_indent hctor).trans (ctorHeader_indent ..)
    exact writeMessageFooter_indent fd desc (by rw [h4, h3, h2, h1])

theorem writeMessagesLoop_indent {ds : Descriptors} {fd : FileDescriptorProto}
    {mc : String} : ∀ {messages : List DescriptorProto} {pre : String}
    {s s' : WriterState},
    writeMessagesLoop ds fd mc messages pre s = .ok s' →
    s'.indent = s.indent := by
  intro messages
  induction messages with
  | nil =>
    intro pre s s' h
    simp only [writeMessagesLoop] at h
    cases h
    rfl
  | cons m ms ih =>
    intro pre s s' h
    simp only [writeMessagesLoop] at h
    by_cases hmem : m.name ∈ PYTHON_RESERVED
    · rw [if_pos hmem] at h
      exact ih h
    · rw [if_neg hmem] at h
      cases hw : writeMessage ds fd mc m pre s with
      | error e => rw [hw] at h; cases h
      | ok s1 =>
        rw [hw] at h
        exact (ih h).trans (writeMessage_indent ds fd mc m pre s s1 hw)

theorem writeMessages_indent {ds : Descriptors} {fd : FileDescriptorProto}
    {messages : List DescriptorProto} {pre : String} {s s' : WriterState}
    (h : writeMessages ds fd messages pre s = .ok s') :
    s'.indent = s.indent := by
  unfold writeMessages at h
  exact (writeMessagesLoop_indent h).trans (importAdd_indent ..)

/-! ## Import registry lemmas -/

theorem importAdd_idem (s : WriterState) (path name : String) :
    importAdd (importAdd s path name).2 path name = importAdd s path name := by
  unfold importAdd insertOnce
  by_cases hm : (pyReplaceChar path '/' ".", name,
      pyReplaceChar (pyReplaceChar path '/' ".") '.' "___" ++ "___" ++ name)
      ∈ s.imports
  · simp [hm]
  · simp [hm]

/-- C4: the import-request operation is idempotent and deduplicating — a
repeated `(module, symbol)` request returns the same deterministically
derived alias (module path with separators mangled to `___`, symbol
appended) and leaves the recorded import set unchanged; N+1 requests from a
fresh writer leave the same state as one; the rendered import block for a
single request has exactly one `name as alias` line; and rendered modules
and per-module symbol lines are lexicographically sorted. -/
theorem C4_import_request_idempotent_dedup :
    (∀ (s : WriterState) (path name : String),
      importAdd (importAdd s path name).2 path name = importAdd s path name)
    ∧ (∀ (s : WriterState) (path name : String),
      (importAdd s path name).1 =
        pyReplaceChar (pyReplaceChar path '/' ".") '.' "___" ++ "___" ++ name)
    ∧ (∀ (path name : String) (k : Nat),
      (fun s => (importAdd s path name).2)^[k + 1] initState =
        (fun s => (importAdd s path name).2) initState)
    ∧ (∀ (path name : String),
      renderImports (importAdd initState path name).2 =
        [importSysLine,
         "from " ++ pyReplaceChar path '/' "." ++ " import (",
         "    " ++ name ++ " as " ++
           (pyReplaceChar (pyReplaceChar path '/' ".") '.' "___" ++ "___" ++
             name) ++ ",",
         ")\n", ""])
    ∧ (∀ s : WriterState, List.Sorted pyStrLe (sortedModules s) ∧
        ∀ pkg, List.Sorted pyPairLe (moduleItems s pkg)) := by
  refine ⟨importAdd_idem, fun _ _ _ => rfl, ?_, ?_, ?_⟩
  · intro path name k
    induction k with
    | zero => rfl
    | succ k ih =>
      rw [Function.iterate_succ_apply', ih]
      exact congrArg Prod.snd (importAdd_idem initState path name)
  · intro path name
    simp only [importAdd, initState, insertOnce, List.not_mem_nil, if_false,
      List.nil_append, renderImports, sortedModules, moduleItems,
      List.map_cons, List.map_nil, List.dedup_cons_of_not_mem,
      List.dedup_nil, pySortStr, pySortPairs, List.insertionSort,
      List.orderedInsert, List.filter, beq_self_eq_true, List.flatMap_cons,
      List.flatMap_nil]
    rfl
  · intro s
    exact ⟨List.sorted_insertionSort pyStrLe _,
      fun pkg => List.sorted_insertionSort pyPairLe _⟩

/-! ## The wire-type mapping table -/

/-- The 18 wire-level type tags the mapping table covers: 15 scalar tags,
plus group (10), message (11) and enum (14). -/
def knownTypeTags : List Nat :=
  [1, 2, 3, 4, 5, 6, 7, 8, 9, 10, 11, 12, 13, 14, 15, 16, 17, 18]

/-- C5: the field-type mapping covers exactly the fixed tag set — each of
the 15 scalar tags yields its fixed builtin or text alias (no other state
inspected), and any tag outside the 18-entry table aborts with the fatal
unrecognized-type error instead of producing an expression. -/
theorem C5_type_mapping_total_on_table :
    (∀ (ds : Descriptors) (fd : FileDescriptorProto)
       (f : FieldDescriptorProto) (s : WriterState),
      (f.type ∈ ([1, 2] : List Nat) →
        (pythonType ds fd f s).map Prod.fst = .ok (mangleBuiltin "float")) ∧
      (f.type ∈ ([3, 4, 5, 6, 7, 13, 15, 16, 17, 18] : List Nat) →
        (pythonType ds fd f s).map Prod.fst = .ok (mangleBuiltin "int")) ∧
      (f.type = 8 →
        (pythonType ds fd f s).map Prod.fst = .ok (mangleBuiltin "bool")) ∧
      (f.type = 9 →
        (pythonType ds fd f s).map Prod.fst =
          .ok (importAdd (scalarBuiltins s) "typing" "Text").1) ∧
      (f.type = 12 →
        (pythonType ds fd f s).map Prod.fst = .ok (mangleBuiltin "bytes")))
    ∧ (∀ (ds : Descriptors) (fd : FileDescriptorProto)
        (f : FieldDescriptorProto) (s : WriterState),
      f.type ∉ knownTypeTags →
      pythonType ds fd f s =
        .error ("Unrecognized type: " ++ toString f.type)) := by
  constructor
  · intro ds fd f s
    refine ⟨?_, ?_, ?_, ?_, ?_⟩ <;> intro hmem
    · simp only [List.mem_cons, List.not_mem_nil, or_false] at hmem
      rcases hmem with h | h
      all_goals (unfold pythonType; rw [h]; rfl)
    · simp only [List.mem_cons, List.not_mem_nil, or_false] at hmem
      rcases hmem with h | h | h | h | h | h | h | h | h | h
      all_goals (unfold pythonType; rw [h]; rfl)
    · unfold pythonType; rw [hmem]; rfl
    · unfold pythonType; rw [hmem]; rfl
    · unfold pythonType; rw [hmem]; rfl
  · intro ds fd f s hmem
    unfold pythonType
    split
    all_goals first
      | rfl
      | (exfalso
         apply hmem
         rename_i heq
         rw [heq]
         decide)

/-- Shared empty descriptor index for concrete instantiations. -/
def ds0 : Descriptors := ⟨[], [], []⟩

/-- Shared minimal proto3 file descriptor for concrete instantiations. -/
def p3File : FileDescriptorProto :=
  ⟨"p.proto", "", "proto3", [], [], [], [], ⟨false⟩⟩

/-- A non-repeated int32 field. -/
def c5FieldFloat : FieldDescriptorProto := ⟨"x", 1, 1, "", none⟩

/-- A field with a tag outside the mapping table. -/
def c5FieldBad : FieldDescriptorProto := ⟨"y", 1, 99, "", none⟩

/-- Witness for C5 at concrete inputs: a double field maps to the float
builtin alias and an unknown tag 99 aborts. -/
theorem C5_witness :
    (pythonType ds0 p3File c5FieldFloat initState).map Prod.fst =
      .ok (mangleBuiltin "float")
    ∧ pythonType ds0 p3File c5FieldBad initState =
      .error ("Unrecognized type: " ++ toString c5FieldBad.type) :=
  ⟨(C5_type_mapping_total_on_table.1 ds0 p3File c5FieldFloat initState).1
      (by decide),
   C5_type_mapping_total_on_table.2 ds0 p3File c5FieldBad initState
      (by decide)⟩

/-! ## Stringly-typed union membership -/

theorem woFields_keys (desc : DescriptorProto) :
    (woFields desc).map (·.1) = desc.oneof_decl.map (·.name) := by
  unfold woFields
  rw [List.map_map]
  have h : ((fun p : String × List String => p.1) ∘
      (fun p : Nat × OneofDescriptorProto =>
        (p.2.name, (desc.field.filter
          (fun f => f.oneof_index == some p.1)).map (·.name)))) =
      (fun p : Nat × OneofDescriptorProto => p.2.name) := rfl
  rw [h, show (fun p : Nat × OneofDescriptorProto => p.2.name) =
    (fun o : OneofDescriptorProto => o.name) ∘ Prod.snd from rfl,
    ← List.map_map, List.enum_map_snd]

theorem hfCondition_iff (fd : FileDescriptorProto)
    (f : FieldDescriptorProto) :
    hfCondition fd f = true ↔
      (f.oneof_index ≠ none ∨
        (f.label ≠ 3 ∧ (fd.protoSyntax ≠ "proto3" ∨ f.type = 11))) := by
  unfold hfCondition
  rw [Bool.or_eq_true, Bool.and_eq_true, Bool.or_eq_true]
  simp [Option.isSome_iff_ne_none]

/-- C3: a field name is in the `HasField` union iff the field is in a oneof,
or is non-repeated and (the syntax is not proto3 or the field is a message
field); every oneof group name is in the union; and the rendered union is
the sorted comma-join of `u"name",b"name"` literal pairs. -/
theorem C3_hasfield_membership :
    ∀ (fd : FileDescriptorProto) (desc : DescriptorProto) (nm : String),
    (nm ∈ hfAll fd desc ↔
      ((∃ f ∈ desc.field, f.name = nm ∧
          (f.oneof_index ≠ none ∨
            (f.label ≠ 3 ∧ (fd.protoSyntax ≠ "proto3" ∨ f.type = 11)))) ∨
        (∃ o ∈ desc.oneof_decl, o.name = nm)))
    ∧ hfFieldsText fd desc = pyJoin "," (pySortStr ((hfAll fd desc).map fmtUB))
    ∧ fmtUB nm = "u\"" ++ nm ++ "\",b\"" ++ nm ++ "\"" := by
  intro fd desc nm
  refine ⟨?_, rfl, rfl⟩
  unfold hfAll hfFields
  rw [List.mem_append, woFields_keys]
  constructor
  · rintro (h | h)
    · left
      rw [List.mem_map] at h
      obtain ⟨f, hf, hname⟩ := h
      rw [List.mem_filter] at hf
      exact ⟨f, hf.1, hname, (hfCondition_iff fd f).mp hf.2⟩
    · right
      rw [List.mem_map] at h
      obtain ⟨o, ho, hname⟩ := h
      exact ⟨o, ho, hname⟩
  · rintro (⟨f, hf, hname, hcond⟩ | ⟨o, ho, hname⟩)
    · left
      rw [List.mem_map]
      exact ⟨f, List.mem_filter.mpr ⟨hf, (hfCondition_iff fd f).mpr hcond⟩,
        hname⟩
    · right
      rw [List.mem_map]
      exact ⟨o, ho, hname⟩

/-! ## Reserved-word omission -/

theorem writeMessagesLoop_insert_reserved {ds : Descriptors}
    {fd : FileDescriptorProto} {mc : String} {m : DescriptorProto}
    (hm : m.name ∈ PYTHON_RESERVED) :
    ∀ (ms1 ms2 : List DescriptorProto) (pre : String) (s : WriterState),
    writeMessagesLoop ds fd mc (ms1 ++ m :: ms2) pre s =
      writeMessagesLoop ds fd mc (ms1 ++ ms2) pre s := by
  intro ms1
  induction ms1 with
  | nil =>
    intro ms2 pre s
    rw [List.nil_append, List.nil_append]
    conv =>
      lhs
      rw [writeMessagesLoop]
    rw [if_pos hm]
  | cons m1 ms1 ih =>
    intro ms2 pre s
    rw [List.cons_append, List.cons_append]
    rw [writeMessagesLoop]
    conv =>
      rhs
      rw [writeMessagesLoop]
    by_cases h1 : m1.name ∈ PYTHON_RESERVED
    · rw [if_pos h1, if_pos h1, ih]
    · rw [if_neg h1, if_neg h1]
      cases writeMessage ds fd mc m1 pre s with
      | error e => rfl
      | ok s1 =>
        simp only []
        rw [ih]

theorem writeEnumValues_insert_reserved {v : EnumValueDescriptorProto}
    (hv : v.name ∈ PYTHON_RESERVED) (vs1 vs2 : List EnumValueDescriptorProto)
    (fn : String) (s : WriterState) :
    writeEnumValues (vs1 ++ v :: vs2) fn s =
      writeEnumValues (vs1 ++ vs2) fn s := by
  unfold writeEnumValues
  rw [List.foldl_append, List.foldl_append, List.foldl_cons]
  congr 1
  simp [hv]

theorem writeEnums_insert_reserved {e : EnumDescriptorProto}
    (he : e.name ∈ PYTHON_RESERVED) (es1 es2 : List EnumDescriptorProto)
    (pre : String) (s : WriterState) :
    writeEnums (es1 ++ e :: es2) pre s = writeEnums (es1 ++ es2) pre s := by
  unfold writeEnums
  rw [List.foldl_append, List.foldl_append, List.foldl_cons]
  congr 1
  simp [he]

theorem filter_reserved_insert {α : Type} (name : α → String)
    {m : α} (hm : name m ∈ PYTHON_RESERVED) (l1 l2 : List α) :
    (l1 ++ m :: l2).filter (fun x => !(PYTHON_RESERVED.contains (name x))) =
      (l1 ++ l2).filter (fun x => !(PYTHON_RESERVED.contains (name x))) := by
  have hc : PYTHON_RESERVED.contains (name m) = true :=
    List.elem_eq_true_of_mem hm
  rw [List.filter_append, List.filter_append, List.filter_cons, hc]
  rfl

theorem pyFilterReserved_insert {f : FieldDescriptorProto}
    (hf : f.name ∈ PYTHON_RESERVED) (fs1 fs2 : List FieldDescriptorProto) :
    pyFilterReserved (fs1 ++ f :: fs2) = pyFilterReserved (fs1 ++ fs2) := by
  unfold pyFilterReserved
  exact filter_reserved_insert (·.name) hf fs1 fs2

theorem writeGrpcMethods_insert_reserved {ds : Descriptors}
    {fd : FileDescriptorProto} {m : MethodDescriptorProto}
    (hm : m.name ∈ PYTHON_RESERVED) (nm : String)
    (ms1 ms2 : List MethodDescriptorProto) (s : WriterState) :
    writeGrpcMethods ds fd ⟨nm, ms1 ++ m :: ms2⟩ s =
      writeGrpcMethods ds fd ⟨nm, ms1 ++ ms2⟩ s := by
  unfold writeGrpcMethods
  rw [show (ServiceDescriptorProto.mk nm (ms1 ++ m :: ms2)).method =
    ms1 ++ m :: ms2 from rfl]
  rw [show (ServiceDescriptorProto.mk nm (ms1 ++ ms2)).method =
    ms1 ++ ms2 from rfl]
  rw [filter_reserved_insert (·.name) hm ms1 ms2]

theorem writeGrpcStubMethods_insert_reserved {ds : Descriptors}
    {fd : FileDescriptorProto} {m : MethodDescriptorProto}
    (hm : m.name ∈ PYTHON_RESERVED) (nm : String)
    (ms1 ms2 : List MethodDescriptorProto) (s : WriterState) :
    writeGrpcStubMethods ds fd ⟨nm, ms1 ++ m :: ms2⟩ s =
      writeGrpcStubMethods ds fd ⟨nm, ms1 ++ ms2⟩ s := by
  unfold writeGrpcStubMethods
  rw [show (ServiceDescriptorProto.mk nm (ms1 ++ m :: ms2)).method =
    ms1 ++ m :: ms2 from rfl]
  rw [show (ServiceDescriptorProto.mk nm (ms1 ++ ms2)).method =
    ms1 ++ ms2 from rfl]
  rw [filter_reserved_insert (·.name) hm ms1 ms2]

theorem writeMethods_insert_reserved {ds : Descriptors}
    {fd : FileDescriptorProto} {m : MethodDescriptorProto}
    (hm : m.name ∈ PYTHON_RESERVED) (nm : String) (ab : Bool)
    (ms1 ms2 : List MethodDescriptorProto) (s : WriterState) :
    writeMethods ds fd ⟨nm, ms1 ++ m :: ms2⟩ ab s =
      writeMethods ds fd ⟨nm, ms1 ++ ms2⟩ ab s := by
  unfold writeMethods
  rw [show (ServiceDescriptorProto.mk nm (ms1 ++ m :: ms2)).method =
    ms1 ++ m :: ms2 from rfl]
  rw [show (ServiceDescriptorProto.mk nm (ms1 ++ ms2)).method =
    ms1 ++ ms2 from rfl]
  rw [filter_reserved_insert (·.name) hm ms1 ms2]

/-- A message named by a reserved word used in concrete instantiations. -/
def c1Msg : DescriptorProto :=
  ⟨"M", [⟨"class", 1, 5, "", none⟩], [], [], [], ⟨false⟩⟩

/-- A message whose own name is a reserved word. -/
def c1ReservedMsg : DescriptorProto := ⟨"class", [], [], [], [], ⟨false⟩⟩

/-- C1 as stated is false: a field literally named `class` (a reserved
word) still occurs in the emitted `ClearField` literal-string union, both as
a text-string and a byte-string literal. -/
theorem C1_counterexample :
    "class" ∈ PYTHON_RESERVED ∧
    "class" ∈ cfAll c1Msg ∧
    (writeStringlyTypedFields p3File c1Msg initState).lines =
      ["def ClearField(self, field_name: typing_extensions___Literal[u\"class\",b\"class\"]) -> None: ..."] :=
  ⟨by decide, by decide, by rfl⟩

/-- C1 amended: reserved-word-named messages, enums, enum values and service
methods produce no output at all (inserting one anywhere leaves the emitted
output unchanged), and reserved-word-named fields are dropped from the list
that drives attribute, accessor and constructor-parameter emission — but
reserved field names still appear in the `HasField`/`ClearField`/`WhichOneof`
literal-string unions, which are built from the unfiltered field list. -/
theorem C1_reserved_omission_amended :
    (∀ (ds : Descriptors) (fd : FileDescriptorProto) (mc : String)
       (m : DescriptorProto) (ms1 ms2 : List DescriptorProto) (pre : String)
       (s : WriterState), m.name ∈ PYTHON_RESERVED →
      writeMessagesLoop ds fd mc (ms1 ++ m :: ms2) pre s =
        writeMessagesLoop ds fd mc (ms1 ++ ms2) pre s)
    ∧ (∀ (e : EnumDescriptorProto) (es1 es2 : List EnumDescriptorProto)
        (pre : String) (s : WriterState), e.name ∈ PYTHON_RESERVED →
      writeEnums (es1 ++ e :: es2) pre s = writeEnums (es1 ++ es2) pre s)
    ∧ (∀ (v : EnumValueDescriptorProto)
        (vs1 vs2 : List EnumValueDescriptorProto) (fn : String)
        (s : WriterState), v.name ∈ PYTHON_RESERVED →
      writeEnumValues (vs1 ++ v :: vs2) fn s =
        writeEnumValues (vs1 ++ vs2) fn s)
    ∧ (∀ (ds : Descriptors) (fd : FileDescriptorProto)
        (m : MethodDescriptorProto) (nm : String) (ab : Bool)
        (ms1 ms2 : List MethodDescriptorProto) (s : WriterState),
        m.name ∈ PYTHON_RESERVED →
      writeMethods ds fd ⟨nm, ms1 ++ m :: ms2⟩ ab s =
        writeMethods ds fd ⟨nm, ms1 ++ ms2⟩ ab s)
    ∧ (∀ (ds : Descriptors) (fd : FileDescriptorProto)
        (m : MethodDescriptorProto) (nm : String)
        (ms1 ms2 : List MethodDescriptorProto) (s : WriterState),
        m.name ∈ PYTHON_RESERVED →
      writeGrpcMethods ds fd ⟨nm, ms1 ++ m :: ms2⟩ s =
        writeGrpcMethods ds fd ⟨nm, ms1 ++ ms2⟩ s ∧
      writeGrpcStubMethods ds fd ⟨nm, ms1 ++ m :: ms2⟩ s =
        writeGrpcStubMethods ds fd ⟨nm, ms1 ++ ms2⟩ s)
    ∧ (∀ (f : FieldDescriptorProto) (fs1 fs2 : List FieldDescriptorProto),
        f.name ∈ PYTHON_RESERVED →
      pyFilterReserved (fs1 ++ f :: fs2) = pyFilterReserved (fs1 ++ fs2))
    ∧ "class" ∈ cfAll c1Msg := by
  refine ⟨?_, ?_, ?_, ?_, ?_, ?_, by decide⟩
  · intro ds fd mc m ms1 ms2 pre s hm
    exact writeMessagesLoop_insert_reserved hm ms1 ms2 pre s
  · intro e es1 es2 pre s he
    exact writeEnums_insert_reserved he es1 es2 pre s
  · intro v vs1 vs2 fn s hv
    exact writeEnumValues_insert_reserved hv vs1 vs2 fn s
  · intro ds fd m nm ab ms1 ms2 s hm
    exact writeMethods_insert_reserved hm nm ab ms1 ms2 s
  · intro ds fd m nm ms1 ms2 s hm
    exact ⟨writeGrpcMethods_insert_reserved hm nm ms1 ms2 s,
      writeGrpcStubMethods_insert_reserved hm nm ms1 ms2 s⟩
  · intro f fs1 fs2 hf
    exact pyFilterReserved_insert hf fs1 fs2

/-- Witness for the amended C1 at concrete inputs: inserting the
reserved-named message `class` into an empty message list leaves the loop
output unchanged, and a reserved-named field is dropped from the filtered
field list. -/
theorem C1_amended_witness :
    writeMessagesLoop ds0 p3File "Message" ([] ++ c1ReservedMsg :: []) ""
        initState =
      writeMessagesLoop ds0 p3File "Message" ([] ++ []) "" initState ∧
    pyFilterReserved ([] ++ ⟨"class", 1, 5, "", none⟩ :: []) =
      pyFilterReserved ([] ++ []) :=
  ⟨C1_reserved_omission_amended.1 ds0 p3File "Message" c1ReservedMsg [] []
      "" initState (by decide),
   (C1_reserved_omission_amended.2.2.2.2.2.1) ⟨"class", 1, 5, "", none⟩ [] []
      (by decide)⟩

/-! ## Sortedness of the literal unions -/

/-- Names made of characters above code point 34 (the double quote); every
identifier admitted by the schema language satisfies this. -/
def IdentChars (nm : String) : Prop := ∀ c ∈ nm.data, 34 < c.toNat

instance : DecidablePred IdentChars := fun nm =>
  List.decidableBAll _ nm.data

theorem lexLe_append_quote : ∀ {a b ta tb : List Char},
    (∀ c ∈ a, 34 < c.toNat) → (∀ c ∈ b, 34 < c.toNat) →
    (a = b → lexLe ta tb = true) →
    (lexLe (a ++ '"' :: ta) (b ++ '"' :: tb) = true ↔ lexLe a b = true)
  | [], [], ta, tb, _, _, hid => by
    simp only [List.nil_append]
    constructor
    · intro _; rfl
    · intro _
      have h := hid rfl
      simp [lexLe, h]
  | [], c :: bs, ta, tb, _, hb, _ => by
    have h34 : ('"').toNat < c.toNat := hb c (List.mem_cons_self ..)
    simp only [List.nil_append, List.cons_append]
    constructor
    · intro _; rfl
    · intro _
      simp only [lexLe]
      rw [if_pos h34]
  | c :: as, [], ta, tb, ha, _, _ => by
    have h34 : ('"').toNat < c.toNat := ha c (List.mem_cons_self ..)
    simp only [List.cons_append, List.nil_append]
    constructor
    · intro h
      rw [show lexLe (c :: (as ++ '"' :: ta)) ('"' :: tb) = false from by
        simp only [lexLe]
        rw [if_neg (Nat.lt_asymm h34), if_pos h34]] at h
      cases h
    · intro h
      simp [lexLe] at h
  | c :: as, d :: bs, ta, tb, ha, hb, hid => by
    simp only [List.cons_append, lexLe]
    by_cases h1 : c.toNat < d.toNat
    · simp [h1]
    · by_cases h2 : d.toNat < c.toNat
      · simp [h1, h2]
      · simp only [h1, h2, if_false]
        exact lexLe_append_quote
          (fun x hx => ha x (List.mem_cons_of_mem _ hx))
          (fun x hx => hb x (List.mem_cons_of_mem _ hx))
          (fun heq => hid (by
            have hcd : c = d := charEqOfToNatEq (by omega)
            rw [hcd, heq]))

theorem fmtUB_data (x : String) : (fmtUB x).data =
    'u' :: '"' :: (x.data ++
      ('"' :: (',' :: 'b' :: '"' :: (x.data ++ ['"'])))) := by
  cases x with
  | mk d =>
    show ((((['u', '"'] ++ d) ++ ['"', ',', 'b', '"']) ++ d) ++ ['"']) = _
    simp

theorem fmtUB_le_iff {a b : String} (ha : IdentChars a) (hb : IdentChars b) :
    pyStrLe (fmtUB a) (fmtUB b) ↔ pyStrLe a b := by
  unfold pyStrLe
  rw [fmtUB_data, fmtUB_data]
  rw [show ∀ X Y : List Char,
      (lexLe ('u' :: '"' :: X) ('u' :: '"' :: Y) = true ↔ lexLe X Y = true)
    from fun X Y => by simp [lexLe]]
  exact lexLe_append_quote ha hb
    (fun heq => by rw [heq]; exact lexLe_refl _)

theorem orderedInsert_fmtUB {n : String} {l : List String}
    (hn : IdentChars n) (hl : ∀ m ∈ l, IdentChars m) :
    List.orderedInsert pyStrLe (fmtUB n) (l.map fmtUB) =
      (List.orderedInsert pyStrLe n l).map fmtUB := by
  induction l with
  | nil => rfl
  | cons m ms ih =>
    simp only [List.map_cons, List.orderedInsert]
    by_cases h : pyStrLe n m
    · rw [if_pos ((fmtUB_le_iff hn (hl m (List.mem_cons_self ..))).mpr h),
        if_pos h, List.map_cons, List.map_cons]
    · rw [if_neg (fun hc =>
          h ((fmtUB_le_iff hn (hl m (List.mem_cons_self ..))).mp hc)),
        if_neg h, List.map_cons,
        ih (fun x hx => hl x (List.mem_cons_of_mem _ hx))]

theorem insertionSort_fmtUB : ∀ {l : List String},
    (∀ m ∈ l, IdentChars m) →
    List.insertionSort pyStrLe (l.map fmtUB) =
      (List.insertionSort pyStrLe l).map fmtUB := by
  intro l
  induction l with
  | nil => intro _; rfl
  | cons n ns ih =>
    intro hl
    simp only [List.map_cons, List.insertionSort]
    rw [ih (fun m hm => hl m (List.mem_cons_of_mem _ hm)),
      orderedInsert_fmtUB (hl n (List.mem_cons_self ..))
        (fun m hm => hl m (List.mem_cons_of_mem _
          ((List.perm_insertionSort pyStrLe ns).subset hm)))]

/-- A message with one oneof group `g` whose member fields are declared in
the order `b`, `a`. -/
def c2Msg : DescriptorProto :=
  ⟨"N", [⟨"b", 1, 5, "", some 0⟩, ⟨"a", 1, 5, "", some 0⟩], [], [],
   [⟨"g"⟩], ⟨false⟩⟩

/-- C2 as stated is false: the `WhichOneof` return union lists the oneof's
member names in declaration order (`"b","a"`), which is not
lexicographically sorted, while the `HasField`/`ClearField` unions are
sorted. -/
theorem C2_counterexample :
    woFields c2Msg = [("g", ["b", "a"])] ∧
    ¬ List.Sorted pyStrLe ["b", "a"] ∧
    (writeStringlyTypedFields p3File c2Msg initState).lines =
      ["def HasField(self, field_name: typing_extensions___Literal[u\"a\",b\"a\",u\"b\",b\"b\",u\"g\",b\"g\"]) -> builtin___bool: ...",
       "def ClearField(self, field_name: typing_extensions___Literal[u\"a\",b\"a\",u\"b\",b\"b\",u\"g\",b\"g\"]) -> None: ...",
       "def WhichOneof(self, oneof_group: typing_extensions___Literal[u\"g\",b\"g\"]) -> typing_extensions___Literal[\"b\",\"a\"]: ..."] :=
  ⟨by rfl, by decide, by rfl⟩

/-- C2 amended: the `HasField` and `ClearField` literal unions list their
member names in lexicographically sorted order (for identifier names), and
the `WhichOneof` accessors are emitted sorted by oneof-group name — but each
group's return union lists that group's member field names in declaration
order, not sorted. -/
theorem C2_sorted_literal_unions_amended :
    (∀ (fd : FileDescriptorProto) (desc : DescriptorProto),
      (∀ n ∈ hfAll fd desc, IdentChars n) →
      hfFieldsText fd desc =
        pyJoin "," ((List.insertionSort pyStrLe (hfAll fd desc)).map fmtUB))
    ∧ (∀ desc : DescriptorProto, (∀ n ∈ cfAll desc, IdentChars n) →
      cfFieldsText desc =
        pyJoin "," ((List.insertionSort pyStrLe (cfAll desc)).map fmtUB))
    ∧ (∀ desc : DescriptorProto,
      List.Sorted pyKeyLe (pySortItems (woFields desc)))
    ∧ (∀ (desc : DescriptorProto) (i : Nat) (o : OneofDescriptorProto),
      desc.oneof_decl.get? i = some o →
      (woFields desc).get? i = some (o.name,
        (desc.field.filter (fun f => f.oneof_index == some i)).map (·.name)))
    ∧ woFields c2Msg = [("g", ["b", "a"])] := by
  refine ⟨?_, ?_, ?_, ?_, by rfl⟩
  · intro fd desc h
    unfold hfFieldsText pySortStr
    rw [insertionSort_fmtUB h]
  · intro desc h
    unfold cfFieldsText pySortStr
    rw [insertionSort_fmtUB h]
  · intro desc
    exact List.sorted_insertionSort pyKeyLe _
  · intro desc i o ho
    unfold woFields
    rw [List.get?_map, List.enum_get?, ho]
    rfl

/-- Witness for the amended C2 at a concrete message. -/
theorem C2_amended_witness :
    hfFieldsText p3File c2Msg =
      pyJoin "," ((List.insertionSort pyStrLe (hfAll p3File c2Msg)).map
        fmtUB) :=
  C2_sorted_literal_unions_amended.1 p3File c2Msg (by decide)

/-! ## Map-entry detection -/

/-- C6: a repeated field whose referenced message is marked `map_entry`
emits a two-parameter `MutableMapping[keyType, valueType]` accessor built
from the mapped types of the entry message's first and second fields; a
repeated non-map composite field emits a one-parameter
`RepeatedCompositeFieldContainer[...]` accessor; a repeated scalar field
emits a one-parameter `RepeatedScalarFieldContainer[...]` attribute. -/
theorem C6_map_entry_mapping_accessor :
    (∀ (ds : Descriptors) (fd : FileDescriptorProto)
       (f : FieldDescriptorProto) (s s' : WriterState)
       (msg : DescriptorProto),
      f.label = 3 →
      List.lookup f.type_name ds.messages = some msg →
      msg.options.map_entry = true →
      writeGetterFieldBody ds fd f s = .ok s' →
      ∃ f0 f1 t0 t1 s1 s2,
        msg.field.get? 0 = some f0 ∧ msg.field.get? 1 = some f1 ∧
        pythonType ds fd f0 (importAdd s "typing" "MutableMapping").2 =
          .ok (t0, s1) ∧
        pythonType ds fd f1 s1 = .ok (t1, s2) ∧
        s' = writeLine (writeLine s2 ("def " ++ f.name ++ "(self) -> " ++
          "typing___MutableMapping" ++ "[" ++ t0 ++ ", " ++ t1 ++
          "]: ...")) "")
    ∧ (∀ (ds : Descriptors) (fd : FileDescriptorProto)
        (f : FieldDescriptorProto) (s s' : WriterState)
        (msg : DescriptorProto),
      f.label = 3 →
      List.lookup f.type_name ds.messages = some msg →
      msg.options.map_entry = false →
      writeGetterFieldBody ds fd f s = .ok s' →
      ∃ t s1,
        pythonType ds fd f (importAdd s
          "google.protobuf.internal.containers"
          "RepeatedCompositeFieldContainer").2 = .ok (t, s1) ∧
        s' = writeLine (writeLine s1 ("def " ++ f.name ++ "(self) -> " ++
          "google___protobuf___internal___containers___RepeatedCompositeFieldContainer"
          ++ "[" ++ t ++ "]: ...")) "")
    ∧ (∀ (ds : Descriptors) (fd : FileDescriptorProto)
        (f : FieldDescriptorProto) (fs : List FieldDescriptorProto)
        (s s' : WriterState),
      isScalar f = true → f.label = 3 →
      writeScalarFields ds fd (f :: fs) s = .ok s' →
      ∃ t s1,
        pythonType ds fd f (importAdd s
          "google.protobuf.internal.containers"
          "RepeatedScalarFieldContainer").2 = .ok (t, s1) ∧
        writeScalarFields ds fd fs (writeLine s1 (f.name ++ ": " ++
          "google___protobuf___internal___containers___RepeatedScalarFieldContainer"
          ++ "[" ++ t ++ "] = ...")) = .ok s') := by
  refine ⟨?_, ?_, ?_⟩
  · intro ds fd f s s' msg hl hlk hmap h
    unfold writeGetterFieldBody at h
    rw [if_pos hl, hlk] at h
    simp only [] at h
    rw [if_pos hmap] at h
    cases hf0 : msg.field.get? 0 with
    | none => rw [hf0] at h; cases h
    | some f0 =>
      rw [hf0] at h
      simp only [] at h
      cases hpt0 : pythonType ds fd f0
          (importAdd s "typing" "MutableMapping").2 with
      | error e => rw [hpt0] at h; cases h
      | ok p0 =>
        obtain ⟨t0, s1⟩ := p0
        rw [hpt0] at h
        simp only [] at h
        cases hf1 : msg.field.get? 1 with
        | none => rw [hf1] at h; cases h
        | some f1 =>
          rw [hf1] at h
          simp only [] at h
          cases hpt1 : pythonType ds fd f1 s1 with
          | error e => rw [hpt1] at h; cases h
          | ok p1 =>
            obtain ⟨t1, s2⟩ := p1
            rw [hpt1] at h
            simp only [] at h
            exact ⟨f0, f1, t0, t1, s1, s2, rfl, rfl, hpt0, hpt1,
              (Except.ok.inj h).symm⟩
  · intro ds fd f s s' msg hl hlk hmap h
    unfold writeGetterFieldBody at h
    rw [if_pos hl, hlk] at h
    simp only [] at h
    rw [if_neg (by rw [hmap]; exact Bool.false_ne_true)] at h
    cases hpt : pythonType ds fd f (importAdd s
        "google.protobuf.internal.containers"
        "RepeatedCompositeFieldContainer").2 with
    | error e => rw [hpt] at h; cases h
    | ok p =>
      obtain ⟨t, s1⟩ := p
      rw [hpt] at h
      simp only [] at h
      exact ⟨t, s1, rfl, (Except.ok.inj h).symm⟩
  · intro ds fd f fs s s' hsc hl h
    rw [show writeScalarFields ds fd (f :: fs) s =
      (if isScalar f then
        if f.label = 3 then
          match pythonType ds fd f (importAdd s
              "google.protobuf.internal.containers"
              "RepeatedScalarFieldContainer").2 with
          | .error e => .error e
          | .ok (t, s1) =>
            writeScalarFields ds fd fs
              (writeLine s1 (f.name ++ ": " ++ (importAdd s
                "google.protobuf.internal.containers"
                "RepeatedScalarFieldContainer").1 ++ "[" ++ t ++ "] = ..."))
        else
          match pythonType ds fd f s with
          | .error e => .error e
          | .ok (t, s1) =>
            writeScalarFields ds fd fs
              (writeLine s1 (f.name ++ ": " ++ t ++ " = ..."))
      else writeScalarFields ds fd fs s) from rfl] at h
    rw [if_pos hsc, if_pos hl] at h
    cases hpt : pythonType ds fd f (importAdd s
        "google.protobuf.internal.containers"
        "RepeatedScalarFieldContainer").2 with
    | error e => rw [hpt] at h; cases h
    | ok p =>
      obtain ⟨t, s1⟩ := p
      rw [hpt] at h
      simp only [] at h
      exact ⟨t, s1, rfl, h⟩

/-- The synthetic map-entry message `TagsEntry` with a string key and an
int32 value. -/
def c6Entry : DescriptorProto :=
  ⟨"TagsEntry", [⟨"key", 1, 9, "", none⟩, ⟨"value", 1, 5, "", none⟩],
   [], [], [], ⟨true⟩⟩

/-- A repeated message field referencing the map entry. -/
def c6Field : FieldDescriptorProto := ⟨"tags", 3, 11, ".p.M.TagsEntry", none⟩

/-- A descriptor index exposing the map entry. -/
def c6Ds : Descriptors := ⟨[(".p.M.TagsEntry", c6Entry)], [], []⟩

/-- Witness for C6 at a concrete repeated map field. -/
theorem C6_witness :
    ∃ s', writeGetterFieldBody c6Ds p3File c6Field initState = .ok s' ∧
    ∃ f0 f1 t0 t1 s1 s2,
      c6Entry.field.get? 0 = some f0 ∧ c6Entry.field.get? 1 = some f1 ∧
      pythonType c6Ds p3File f0
        (importAdd initState "typing" "MutableMapping").2 = .ok (t0, s1) ∧
      pythonType c6Ds p3File f1 s1 = .ok (t1, s2) ∧
      s' = writeLine (writeLine s2 ("def " ++ c6Field.name ++ "(self) -> " ++
        "typing___MutableMapping" ++ "[" ++ t0 ++ ", " ++ t1 ++
        "]: ...")) "" :=
  ⟨_, rfl, C6_map_entry_mapping_accessor.1 c6Ds p3File c6Field initState _
    c6Entry rfl rfl rfl rfl⟩

/-! ## Response entry naming -/

theorem take_append_len {α : Type} (d e : List α) :
    List.take ((d ++ e).length - e.length) (d ++ e) = d := by
  rw [List.length_append, Nat.add_sub_cancel, List.take_left]

theorem pyDropRight_proto (base : String) :
    pyDropRight (base ++ ".proto") 6 = base := by
  cases base with
  | mk d =>
    show String.mk (List.take _ _) = String.mk d
    exact congrArg String.mk (take_append_len d ".proto".data)

theorem pyStartsWith_append (a b : String) :
    pyStartsWith (a ++ b) a = true := by
  cases a with
  | mk da =>
    cases b with
    | mk db =>
      show List.isPrefixOf da (da ++ db) = true
      exact List.isPrefixOf_iff_prefix.mpr (List.prefix_append da db)

/-- C7: every successful response entry's filename is the file identifier
with the `.proto` suffix stripped, hyphens mapped to underscores and dots to
slashes, plus `_pb2.pyi` (general stub) or `_pb2_grpc.pyi` (service stub);
and the entry's content starts with the one-line generated-file header. -/
theorem C7_response_entry_name_and_header :
    (∀ (ds : Descriptors) (nm : String) (fd : FileDescriptorProto)
       (base : String) (out : String × String),
      fd.name = base ++ ".proto" →
      generateStubEntry ds nm fd = .ok out →
      out.1 = pyReplaceChar (pyReplaceChar base '-' "_") '.' "/" ++
        "_pb2.pyi" ∧
      pyStartsWith out.2 HEADER = true)
    ∧ (∀ (ds : Descriptors) (nm : String) (fd : FileDescriptorProto)
        (base : String) (out : String × String),
      fd.name = base ++ ".proto" →
      generateGrpcStubEntry ds nm fd = .ok out →
      out.1 = pyReplaceChar (pyReplaceChar base '-' "_") '.' "/" ++
        "_pb2_grpc.pyi" ∧
      pyStartsWith out.2 HEADER = true) := by
  constructor
  · intro ds nm fd base out hname h
    unfold generateStubEntry at h
    repeat' split at h
    all_goals try cases h
    rw [hname, pyDropRight_proto]
    exact ⟨rfl, pyStartsWith_append ..⟩
  · intro ds nm fd base out hname h
    unfold generateGrpcStubEntry at h
    repeat' split at h
    all_goals try cases h
    rw [hname, pyDropRight_proto]
    exact ⟨rfl, pyStartsWith_append ..⟩

/-- The literal response entry produced for the empty proto3 file
`p.proto`. -/
def c7Out : String × String :=
  ("p_pb2.pyi",
   "# @generated by generate_proto_mypy_stubs.py.  Do not edit!\nimport sys\nfrom google.protobuf.descriptor import (\n    FileDescriptor as google___protobuf___descriptor___FileDescriptor,\n)\n\nfrom google.protobuf.message import (\n    Message as google___protobuf___message___Message,\n)\n\n\nDESCRIPTOR: google___protobuf___descriptor___FileDescriptor = ...\n")

/-- Witness for C7 at the concrete file `p.proto`. -/
theorem C7_witness :
    generateStubEntry ds0 "p.proto" p3File = .ok c7Out ∧
    c7Out.1 = pyReplaceChar (pyReplaceChar "p" '-' "_") '.' "/" ++
      "_pb2.pyi" ∧
    pyStartsWith c7Out.2 HEADER = true := by
  have h : generateStubEntry ds0 "p.proto" p3File = .ok c7Out := by
    simp only [generateStubEntry, p3File, writeMessages, writeMessagesLoop]
    set_option maxRecDepth 10000 in rfl
  exact ⟨h, C7_response_entry_name_and_header.1 ds0 "p.proto" p3File "p"
    c7Out rfl h⟩

/-! ## Indentation scoping -/

/-- A message with one nested enum, three levels deep. -/
def innerMsg : DescriptorProto :=
  ⟨"Inner", [], [], [⟨"E", []⟩], [], ⟨false⟩⟩

/-- The middle message of the three-deep nesting. -/
def middleMsg : DescriptorProto := ⟨"Middle", [], [innerMsg], [], [], ⟨false⟩⟩

/-- The outer message of the three-deep nesting. -/
def outerMsg : DescriptorProto := ⟨"Outer", [], [middleMsg], [], [], ⟨false⟩⟩

/-- The exact lines emitted for the three-deep nesting
`Outer.Middle.Inner` with nested enum `E`. -/
def c8Lines : List String :=
  ["class Outer(google___protobuf___message___Message):",
   "    DESCRIPTOR: google___protobuf___descriptor___Descriptor = ...",
   "    class Middle(google___protobuf___message___Message):",
   "        DESCRIPTOR: google___protobuf___descriptor___Descriptor = ...",
   "        class Inner(google___protobuf___message___Message):",
   "            DESCRIPTOR: google___protobuf___descriptor___Descriptor = ...",
   "            EValue = typing___NewType(" ++ sq ++ "EValue" ++ sq ++
     ", builtin___int)",
   "            type___EValue = EValue",
   "            E: _E",
   "            class _E(google___protobuf___internal___enum_type_wrapper____EnumTypeWrapper[Outer.Middle.Inner.EValue]):",
   "                DESCRIPTOR: google___protobuf___descriptor___EnumDescriptor = ...",
   "            type___E = E",
   "",
   "",
   "            def __init__(self,",
   "                ) -> None: ...",
   "        type___Inner = Inner",
   "",
   "",
   "        def __init__(self,",
   "            ) -> None: ...",
   "    type___Middle = Middle",
   "",
   "",
   "    def __init__(self,",
   "        ) -> None: ...",
   "type___Outer = Outer",
   ""]

/-- C8: writing a message block restores the writer's indentation (for
arbitrary nesting); entering a message body adds exactly four spaces;
leaving an indent scope undoes entering it; and the concrete three-deep
nesting `Outer.Middle.Inner` emits `Inner`'s class line two levels deep,
its body (including the nested enum naming the qualified
`Outer.Middle.Inner` path) three levels deep, and leaves the indent
restored to file scope. -/
theorem C8_indent_scoped_and_restored :
    (∀ (ds : Descriptors) (fd : FileDescriptorProto)
       (messages : List DescriptorProto) (pre : String) (s s' : WriterState),
      writeMessages ds fd messages pre s = .ok s' → s'.indent = s.indent)
    ∧ (∀ (mc : String) (desc : DescriptorProto) (pre : String)
        (s : WriterState),
      (writeMessageHeader mc desc pre s).indent = s.indent ++ "    ")
    ∧ (∀ s : WriterState, (indentIn s).indent = s.indent ++ "    " ∧
        indentOut (indentIn s) = s)
    ∧ (writeMessages ds0 p3File [outerMsg] "" initState).map
        (fun st => (st.indent, st.lines)) = .ok ("", c8Lines)
    ∧ c8Lines.get? 4 = some ("    " ++ "    " ++
        "class Inner(google___protobuf___message___Message):")
    ∧ c8Lines.get? 9 = some ("    " ++ "    " ++ "    " ++
        "class _E(google___protobuf___internal___enum_type_wrapper____EnumTypeWrapper[Outer.Middle.Inner.EValue]):") := by
  refine ⟨?_, writeMessageHeader_indent, ?_, ?_, by rfl, by rfl⟩
  · intro ds fd messages pre s s' h
    exact writeMessages_indent h
  · intro s
    refine ⟨rfl, ?_⟩
    cases s with
    | mk lines indent imports locals bv pbv =>
      simp [indentIn, indentOut, pyDropRight_four]
  · rw [← writeMessagesFuel_spec (sizeOf [outerMsg]) ds0 p3File [outerMsg]
      "" initState le_rfl]
    set_option maxRecDepth 10000 in rfl

/-- Witness for C8's general indent-restoration clause at a concrete
input. -/
theorem C8_witness :
    ((importAdd initState "google.protobuf.message" "Message").2).indent =
      initState.indent :=
  C8_indent_scoped_and_restored.1 ds0 p3File [] "" initState _
    (by simp only [writeMessages, writeMessagesLoop])

/-! ## The grpc re-export IndexError -/

/-- A schema file identifier with no directory separator. -/
def c9FdNoSlash : FileDescriptorProto :=
  ⟨"foo.proto", "", "", [], [], [], [], ⟨false⟩⟩

/-- A schema file identifier with a directory separator and a hyphen. -/
def c9FdSlash : FileDescriptorProto :=
  ⟨"dir/foo-bar.proto", "", "", [], [], [], [], ⟨false⟩⟩

/-- C9: the gateway-style service writer indexes `rsplit('/', 1)[1]`, which
raises `IndexError` for any file identifier without a directory separator —
so the re-export line is only emitted for slash-containing identifiers, and
the whole grpc generation aborts on a plain `foo.proto`. -/
theorem C9_grpc_reexport_indexerror :
    pyRsplitSlash1 "foo.proto" = ["foo.proto"] ∧
    writeGrpcServices ds0 c9FdNoSlash [] initState =
      .error "IndexError: list index out of range" ∧
    generateGrpcStubEntry ds0 "foo.proto" c9FdNoSlash =
      .error "IndexError: list index out of range" ∧
    (∃ s, writeGrpcServices ds0 c9FdSlash [] initState = .ok s ∧
      s.lines = ["from .foo_bar_pb2 import *"]) := by
  refine ⟨by rfl, by rfl, by rfl, ⟨_, rfl, by rfl⟩⟩

/-! ## Determinism -/

theorem insertionSort_eq_of_perm {α : Type} (r : α → α → Prop)
    [DecidableRel r] [IsTotal α r] [IsTrans α r] [IsAntisymm α r]
    {l1 l2 : List α} (h : l1.Perm l2) :
    List.insertionSort r l1 = List.insertionSort r l2 :=
  List.eq_of_perm_of_sorted
    ((List.perm_insertionSort r l1).trans
      (h.trans (List.perm_insertionSort r l2).symm))
    (List.sorted_insertionSort r l1) (List.sorted_insertionSort r l2)

/-- C10: generation is deterministic — rerunning on the same input yields
the same output, and the rendered text depends only on the contents of the
recorded import/builtin sets, not on the order in which they were inserted
(the rendering sorts everything). -/
theorem C10_generation_deterministic :
    (∀ ds : Descriptors, generateMypyStubs ds = generateMypyStubs ds ∧
      generateMypyGrpcStubs ds = generateMypyGrpcStubs ds)
    ∧ (∀ s1 s2 : WriterState, s1.imports.Perm s2.imports →
        s1.builtin_vars.Perm s2.builtin_vars →
        s1.py2_builtin_vars.Perm s2.py2_builtin_vars →
        s1.lines = s2.lines → writeOut s1 = writeOut s2) := by
  refine ⟨fun ds => ⟨rfl, rfl⟩, ?_⟩
  intro s1 s2 hi hb hp hl
  have hmod : sortedModules s1 = sortedModules s2 := by
    unfold sortedModules pySortStr
    exact insertionSort_eq_of_perm pyStrLe ((hi.map _).dedup)
  have hitems : ∀ pkg, moduleItems s1 pkg = moduleItems s2 pkg := by
    intro pkg
    unfold moduleItems pySortPairs
    exact insertionSort_eq_of_perm pyPairLe ((hi.filter _).map _)
  have himp : renderImports s1 = renderImports s2 := by
    unfold renderImports
    rw [hmod, funext (fun pkg => by rw [hitems pkg] :
      ∀ pkg, ("from " ++ pkg ++ " import (") ::
        ((moduleItems s1 pkg).map
          (fun it => "    " ++ it.1 ++ " as " ++ it.2 ++ ",") ++ [")\n"]) =
        ("from " ++ pkg ++ " import (") ::
        ((moduleItems s2 pkg).map
          (fun it => "    " ++ it.1 ++ " as " ++ it.2 ++ ",") ++ [")\n"]))]
  have hnil : (s1.py2_builtin_vars ≠ []) ↔ (s2.py2_builtin_vars ≠ []) := by
    constructor
    · intro h hc
      rw [hc] at hp
      exact h hp.eq_nil
    · intro h hc
      rw [hc] at hp
      exact h hp.symm.eq_nil
  have hal : renderAliases s1 = renderAliases s2 := by
    unfold renderAliases pySortStr
    rw [insertionSort_eq_of_perm pyStrLe hb,
      insertionSort_eq_of_perm pyStrLe hp]
    by_cases h2 : s2.py2_builtin_vars ≠ []
    · rw [if_pos (hnil.mpr h2), if_pos h2]
    · rw [if_neg (fun hc => h2 (hnil.mp hc)), if_neg h2]
  unfold writeOut
  rw [himp, hal, hl]

/-- Two writer states with the same recorded sets in different insertion
orders. -/
def c10S1 : WriterState :=
  ⟨["x"], "", [("a", "A", "a___A"), ("b", "B", "b___B")], [],
   ["int", "bool"], ["unicode", "buffer"]⟩

/-- The same recorded sets, permuted. -/
def c10S2 : WriterState :=
  ⟨["x"], "", [("b", "B", "b___B"), ("a", "A", "a___A")], [],
   ["bool", "int"], ["buffer", "unicode"]⟩

/-- Witness for C10 at two concrete permuted states. -/
theorem C10_witness : writeOut c10S1 = writeOut c10S2 :=
  C10_generation_deterministic.2 c10S1 c10S2 (by decide) (by decide)
    (by decide) rfl

end MypyProtobuf
